import Mathlib

/-!
Verification of the octapulse-core batch analysis server.

Shallow embedding of the three core components:
* the transient in-memory object store (src/server/app/services/in_memory_storage.py),
* the population statistics engine (src/server/app/services/population_analysis.py),
* the batch orchestration endpoints (src/server/app/api/v1/endpoints/analysis.py).

Conventions of the embedding:
* Python floats that can be NaN or infinite are modelled as `Option ℚ`
  (`none` stands for a non-finite value, `some q` for the finite value `q`);
  floats that the data model validates to be finite are modelled as `ℚ`.
* Wall-clock instants and durations are explicit `ℚ` parameters.
* Fallible endpoints return `Except String`.
* The concurrent background processor is modelled as a small-step system:
  an event list (the schedule) is folded over the batch state, one event per
  atomic section of the Python coroutine (sections not separated by an await).
-/

namespace Octapulse

/-! ## Transient object store (in_memory_storage.py) -/

/-- Entry of the in-memory store: payload bytes (opaque, modelled as a
string), optional content type, optional absolute expiry instant. -/
structure StoreEntry where
  data : String
  content_type : Option String
  expires_at : Option ℚ
deriving DecidableEq

/-- State of `InMemoryStorage`: the key-value map plus the amortized
garbage-collection bookkeeping (`_last_gc`, `_gc_interval_seconds`). -/
structure InMemoryStorage where
  data : String → Option StoreEntry
  last_gc : ℚ
  gc_interval : ℚ

/-- The expiry test used by `get`, `exists` and `_maybe_gc`:
`entry.expires_at is not None and entry.expires_at < now`. -/
def entryExpired (e : StoreEntry) (now : ℚ) : Bool :=
  match e.expires_at with
  | some t => decide (t < now)
  | none => false

/-- `_maybe_gc`: when at least `gc_interval` elapsed since the last sweep,
remove every expired entry and remember the sweep time. -/
def maybeGc (now : ℚ) (s : InMemoryStorage) : InMemoryStorage :=
  if now - s.last_gc < s.gc_interval then s
  else
    { data := fun k =>
        match s.data k with
        | some e => if entryExpired e now then none else some e
        | none => none,
      last_gc := now,
      gc_interval := s.gc_interval }

/-- Expiry instant computed by `put`:
`time.time() + ttl_seconds if ttl_seconds and ttl_seconds > 0 else None`.
The Python condition (truthiness of `ttl_seconds` conjoined with
`ttl_seconds > 0`) is equivalent to the ttl being present and strictly
positive. -/
def ttlExpiry (ttl : Option ℤ) (now : ℚ) : Option ℚ :=
  match ttl with
  | some n => if 0 < n then some (now + (n : ℚ)) else none
  | none => none

/-- `InMemoryStorage.put`: insert or overwrite the entry, then run the
amortized sweep. -/
def put (key : String) (d : String) (ct : Option String) (ttl : Option ℤ)
    (now : ℚ) (s : InMemoryStorage) : InMemoryStorage :=
  maybeGc now
    { s with data := fun k => if k = key then some ⟨d, ct, ttlExpiry ttl now⟩ else s.data k }

/-- `InMemoryStorage.get`: a miss is a normal `none` return, both for an
absent key and for an expired entry; an expired entry found on read is
deleted as part of the read. Returns the result and the new store state. -/
def get (key : String) (now : ℚ) (s : InMemoryStorage) :
    Option (String × Option String) × InMemoryStorage :=
  match s.data key with
  | none => (none, s)
  | some e =>
    if entryExpired e now then
      (none, { s with data := fun k => if k = key then none else s.data k })
    else (some (e.data, e.content_type), s)

/-- `InMemoryStorage.exists`: same expiry semantics as `get` without
returning the payload. -/
def existsKey (key : String) (now : ℚ) (s : InMemoryStorage) :
    Bool × InMemoryStorage :=
  match s.data key with
  | none => (false, s)
  | some e =>
    if entryExpired e now then
      (false, { s with data := fun k => if k = key then none else s.data k })
    else (true, s)

/-- The store with no entries, as built by `InMemoryStorage.__init__`
(gc interval 60 seconds, last sweep at epoch 0). -/
def emptyStorage : InMemoryStorage :=
  { data := fun _ => none, last_gc := 0, gc_interval := 60 }

/-! ## Shared data model (models/fish_analysis.py) -/

/-- The `AnalysisStatus` string enum. -/
inductive AnalysisStatus where
  | pending
  | processing
  | completed
  | failed
deriving DecidableEq

/-- The fields of `FishAnalysisResult` that the verified components read:
id, source reference, status, named measurements (`distance_inches`),
per-detection confidences, processing time, creation instant
(`processing_metadata.processed_at`), optional error text. Floats that
pydantic validates with `ge=0` are modelled as `ℚ`. -/
structure FishResult where
  analysis_id : String
  image_path : String
  status : AnalysisStatus
  measurements : List (String × ℚ)
  confidences : List ℚ
  processing_time : ℚ
  processed_at : ℚ
  error_message : Option String
deriving DecidableEq

/-! ## Population statistics engine (population_analysis.py)

Python float values that may be NaN or infinite are `Option ℚ` (`none`
denotes any non-finite value). The numpy/scipy numeric kernels (Pearson
coefficient, p-value) are external collaborators and enter as function
parameters; everything else is translated from the source. -/

/-- A possibly non-finite Python float. -/
abbrev PFloat := Option ℚ

/-- A JSON-like Python value tree as handled by `_sanitize_value` and
`_sanitize_dict`. -/
inductive PyVal where
  | num (x : PFloat)
  | int (n : ℤ)
  | str (s : String)
  | pynone
  | list (l : List PyVal)
  | dict (l : List (String × PyVal))

/-- `_sanitize_value`: a non-finite number becomes `0.0`, `None` becomes
`0.0`, anything else is returned unchanged (containers are not entered). -/
def sanitizeValue : PyVal → PyVal
  | .num none => .num (some 0)
  | .pynone => .num (some 0)
  | v => v

mutual

/-- `_sanitize_dict`: recurse into sub-dicts; inside a list, recurse into
dict elements and apply `_sanitize_value` to the rest (a list nested
directly inside a list is passed to `_sanitize_value`, which leaves it
unchanged); apply `_sanitize_value` to every other value. -/
def sanitizeDict : List (String × PyVal) → List (String × PyVal)
  | [] => []
  | (k, v) :: rest => (k, sanitizeDictVal v) :: sanitizeDict rest

/-- Per-value branch of `_sanitize_dict`. -/
def sanitizeDictVal : PyVal → PyVal
  | .dict d => .dict (sanitizeDict d)
  | .list l => .list (sanitizeListElems l)
  | v => sanitizeValue v

/-- The list comprehension inside `_sanitize_dict`: `_sanitize_dict` on
dict elements, `_sanitize_value` on every other element (spelled out per
constructor). -/
def sanitizeListElems : List PyVal → List PyVal
  | [] => []
  | .dict d :: xs => .dict (sanitizeDict d) :: sanitizeListElems xs
  | .num x :: xs => sanitizeValue (.num x) :: sanitizeListElems xs
  | .int n :: xs => sanitizeValue (.int n) :: sanitizeListElems xs
  | .str s :: xs => sanitizeValue (.str s) :: sanitizeListElems xs
  | .pynone :: xs => sanitizeValue .pynone :: sanitizeListElems xs
  | .list l :: xs => sanitizeValue (.list l) :: sanitizeListElems xs

end

mutual

/-- Every `num` leaf of the value tree is finite. -/
def allFinite : PyVal → Bool
  | .num x => x.isSome
  | .int _ => true
  | .str _ => true
  | .pynone => true
  | .list l => allFiniteList l
  | .dict l => allFiniteDict l

/-- `allFinite` over the elements of a list. -/
def allFiniteList : List PyVal → Bool
  | [] => true
  | x :: xs => allFinite x && allFiniteList xs

/-- `allFinite` over the values of a dict. -/
def allFiniteDict : List (String × PyVal) → Bool
  | [] => true
  | (_, v) :: xs => allFinite v && allFiniteDict xs

end

/-- Association lookup in a dict literal (Python `d[key]`). -/
def lookupPy : List (String × PyVal) → String → Option PyVal
  | [], _ => none
  | (k, v) :: rest, key => if k = key then some v else lookupPy rest key

/-- Field access on a dict value. -/
def dictGet (v : PyVal) (key : String) : Option PyVal :=
  match v with
  | .dict l => lookupPy l key
  | _ => none

/-- A row of the measurement dataframe: column name to value, `none` when
the measurement is missing for that fish (NaN cell). -/
def Row := String → Option ℚ

/-- The dataframe built by `_extract_measurement_data`: the numeric columns
(`confidence`, measurement columns, detection-count columns) plus the two
string columns `analysis_id` and `image_path`, and one row per successful
result. -/
structure DFrame where
  cols : List String
  rows : List Row

/-- Column selection of `_calculate_correlations`: numeric columns other
than `analysis_id`, `image_path` and `confidence` (the two name columns are
the only non-numeric ones in this frame). -/
def measurementColumns (df : DFrame) : List String :=
  df.cols.filter (fun c => !(["analysis_id", "image_path", "confidence"].contains c))

/-- `df[measurement_columns].dropna()`: the rows in which every measurement
column is present. This is a global completeness filter over all columns at
once, not a per-pair one. -/
def completeRows (df : DFrame) (mcols : List String) : List Row :=
  df.rows.filter (fun r => mcols.all (fun c => (r c).isSome))

/-- Unordered pair enumeration of the nested loop
`for i, col1 in enumerate(cols): for col2 in cols[i+1:]`. -/
def pairsOf : List α → List (α × α)
  | [] => []
  | x :: xs => xs.map (fun y => (x, y)) ++ pairsOf xs

/-- Python `str.replace(sep, rep)` for a one-character pattern. -/
def underscoreToSpace (s : String) : String :=
  String.map (fun c => if c = '_' then ' ' else c) s

/-- Python `str.title()`: uppercase every letter that follows a non-letter,
lowercase the other letters. -/
def pyTitleAux : Bool → List Char → List Char
  | _, [] => []
  | prevAlpha, c :: cs =>
    (if c.isAlpha then (if prevAlpha then c.toLower else c.toUpper) else c)
      :: pyTitleAux c.isAlpha cs

/-- Python `str.title()` on a string. -/
def pyTitle (s : String) : String :=
  ⟨pyTitleAux false s.data⟩

/-- Column display name: `column.replace(sep, rep).title()`. -/
def colTitle (c : String) : String :=
  pyTitle (underscoreToSpace c)

/-- One emitted correlation record. -/
structure CorrelationOut where
  measurement1 : String
  measurement2 : String
  correlation_coefficient : ℚ
  p_value : ℚ
  relationship_strength : String
deriving DecidableEq

/-- The strength ladder on the absolute coefficient. -/
def classifyStrength (a : ℚ) : String :=
  if 8/10 ≤ a then "very_strong"
  else if 6/10 ≤ a then "strong"
  else if 4/10 ≤ a then "moderate"
  else if 2/10 ≤ a then "weak"
  else "very_weak"

/-- The per-pair body of the correlation loop: look the pair up in the
correlation matrix, skip NaN and infinite coefficients, keep the pair only
when the absolute coefficient exceeds 0.3, replace a non-finite p-value by
1.0, and classify the strength. -/
def corrForPair (mcols : List String) (corrData : List Row)
    (corrf pvalf : List Row → String → String → PFloat)
    (c1 c2 : String) : Option CorrelationOut :=
  if mcols.contains c1 && mcols.contains c2 then
    match corrf corrData c1 c2 with
    | none => none
    | some r =>
      if 3/10 < |r| then
        let p : ℚ :=
          match pvalf corrData c1 c2 with
          | none => 1
          | some q => q
        some ⟨colTitle c1, colTitle c2, r, p, classifyStrength |r|⟩
      else none
  else none

/-- `_calculate_correlations`, with the Pearson coefficient `corrf` and the
two-tailed p-value `pvalf` as external numeric kernels evaluated on the
globally complete rows. -/
def calcCorrelations (df : DFrame)
    (corrf pvalf : List Row → String → String → PFloat) : List CorrelationOut :=
  let mcols := measurementColumns df
  if mcols.length < 2 then []
  else
    let corrData := completeRows df mcols
    if corrData.length < 3 then []
    else (pairsOf mcols).filterMap fun p => corrForPair mcols corrData corrf pvalf p.1 p.2

/-- One emitted distribution record (numeric fields already cast to float
by the source, hence possibly infinite). -/
structure DistributionOut where
  measurement_name : String
  mean : PFloat
  median : PFloat
  std_dev : PFloat
  min_value : PFloat
  max_value : PFloat
  q25 : PFloat
  q75 : PFloat
  skewness : PFloat
  kurtosis : PFloat
  sample_size : ℤ

/-- One emitted insight record; correlation insights carry the extra
`statistical_significance` key. -/
structure InsightOut where
  category : String
  title : String
  insight : String
  confidence : PFloat
  data_points : ℤ
  statistical_significance : Option PFloat

/-- One size-classification bucket. -/
structure SizeBucket where
  count : ℤ
  percentage : PFloat
  range_lo : PFloat
  range_hi : PFloat

/-- The three size buckets. -/
structure SizeClassificationOut where
  small : SizeBucket
  medium : SizeBucket
  large : SizeBucket

/-- The quality metrics record. -/
structure QualityOut where
  high_confidence : ℤ
  medium_confidence : ℤ
  low_confidence : ℤ
  average_detection_confidence : PFloat

/-- The distribution dict literal of `_calculate_distributions`. -/
def distToPy (d : DistributionOut) : PyVal :=
  .dict [("measurement_name", .str d.measurement_name), ("mean", .num d.mean),
    ("median", .num d.median), ("std_dev", .num d.std_dev),
    ("min_value", .num d.min_value), ("max_value", .num d.max_value),
    ("q25", .num d.q25), ("q75", .num d.q75), ("skewness", .num d.skewness),
    ("kurtosis", .num d.kurtosis), ("sample_size", .int d.sample_size)]

/-- The correlation dict literal of `_calculate_correlations` (the emitted
coefficient and p-value are finite by construction). -/
def corrToPy (c : CorrelationOut) : PyVal :=
  .dict [("measurement1", .str c.measurement1), ("measurement2", .str c.measurement2),
    ("correlation_coefficient", .num (some c.correlation_coefficient)),
    ("p_value", .num (some c.p_value)),
    ("relationship_strength", .str c.relationship_strength)]

/-- The insight dict literals of `_generate_insights`. -/
def insightToPy (i : InsightOut) : PyVal :=
  .dict ([("category", .str i.category), ("title", .str i.title),
    ("insight", .str i.insight), ("confidence", .num i.confidence),
    ("data_points", .int i.data_points)] ++
    (match i.statistical_significance with
     | some p => [("statistical_significance", .num p)]
     | none => []))

/-- One bucket dict literal of `_classify_sizes`. -/
def bucketToPy (b : SizeBucket) : PyVal :=
  .dict [("count", .int b.count), ("percentage", .num b.percentage),
    ("range", .list [.num b.range_lo, .num b.range_hi])]

/-- The size-classification dict literal of `_classify_sizes`. -/
def sizeToPy (s : SizeClassificationOut) : PyVal :=
  .dict [("small", bucketToPy s.small), ("medium", bucketToPy s.medium),
    ("large", bucketToPy s.large)]

/-- The quality-metrics dict literal of `_calculate_quality_metrics`. -/
def qualityToPy (q : QualityOut) : PyVal :=
  .dict [("high_confidence", .int q.high_confidence),
    ("medium_confidence", .int q.medium_confidence),
    ("low_confidence", .int q.low_confidence),
    ("average_detection_confidence", .num q.average_detection_confidence)]

/-- The five statistical subroutines of the engine, abstracted as functions
of the successful results they are fed (`_calculate_distributions`,
`_calculate_correlations`, `_generate_insights`, `_classify_sizes`,
`_calculate_quality_metrics`). -/
structure EngineFns where
  distributions : List FishResult → List DistributionOut
  correlationsOf : List FishResult → List CorrelationOut
  insightsOf : List FishResult → List DistributionOut → List CorrelationOut → List InsightOut
  sizeClassification : List FishResult → SizeClassificationOut
  qualityMetrics : List FishResult → QualityOut

/-- The result dict assembled by `analyze_population` before sanitization. -/
def assembleResult (results successful : List FishResult) (fns : EngineFns) :
    List (String × PyVal) :=
  let pts := successful.map (fun r => r.processing_time)
  let dists := fns.distributions successful
  let corrs := fns.correlationsOf successful
  [("total_fish", .int results.length),
   ("successful_analyses", .int successful.length),
   ("failed_analyses", .int ((results.length : ℤ) - (successful.length : ℤ))),
   ("processing_time_total", .num (some pts.sum)),
   ("processing_time_average",
     .num (some (if pts.length = 0 then 0 else pts.sum / (pts.length : ℚ)))),
   ("distributions", .list (dists.map distToPy)),
   ("correlations", .list (corrs.map corrToPy)),
   ("insights", .list ((fns.insightsOf successful dists corrs).map insightToPy)),
   ("size_classification", sizeToPy (fns.sizeClassification successful)),
   ("quality_metrics", qualityToPy (fns.qualityMetrics successful))]

/-- `analyze_population`: filter the completed results, fail when none
remain, assemble the totals and the five sub-analyses, and sanitize the
whole result dict before returning it. -/
def analyzePopulation (results : List FishResult) (fns : EngineFns) :
    Except String PyVal :=
  let successful := results.filter (fun r => r.status == .completed)
  if successful.isEmpty then .error "No successful analyses found"
  else .ok (.dict (sanitizeDict (assembleResult results successful fns)))

/-- The `population-stats` endpoint `get_population_statistics`, applied to
the stored batch fields it reads (`status` and `results`): requires a
COMPLETED batch with a nonempty result list, filters the successful subset,
fails when it is empty, then invokes the engine on the successful subset
only. -/
def getPopulationStatistics (status : AnalysisStatus)
    (results : List FishResult) (fns : EngineFns) : Except String PyVal :=
  if status ≠ .completed then
    .error "Batch analysis must be completed to generate population statistics"
  else if results.isEmpty then .error "No analysis results found"
  else
    let successful := results.filter (fun r => r.status == .completed)
    if successful.isEmpty then
      .error "No successful analysis results found for population statistics"
    else analyzePopulation successful fns

/-! ## Batch orchestrator (endpoints/analysis.py)

The background processor `_process_batch_images` is concurrent: one
coroutine per valid image, bounded by a semaphore, plus the externally
triggered cancel endpoint. It is modelled as a small-step system. Each
event is one atomic section (no await inside):

* `beginProc` — entry of `_process_batch_images`: sets PROCESSING
  unconditionally;
* `startTask i` — task `i` acquires the semaphore, performs the
  cancellation check and either skips or records `current_image` and starts
  the Analyzer call;
* `finishTask i` — the awaited Analyzer call returns: on success append
  the result and bump `completed_images`; on error bump `failed_images`
  and synthesize the failed result — whose pydantic construction itself
  raises (pixels_per_inch = 0 violates its `gt=0` bound), propagating out
  of `asyncio.gather` into the outer handler, which marks the batch FAILED
  (the loop keeps running the already-created sibling tasks);
* `cancel` — the DELETE endpoint body;
* `finalize` — the code after `gather`: store the accumulated list in the
  batch record and set COMPLETED unless the status is FAILED.

Events whose guard does not hold (a coroutine section that cannot run at
that point) leave the state unchanged, so an arbitrary event list is an
arbitrary schedule. -/

/-- Phase of one per-image task. -/
inductive TaskPhase where
  | notStarted
  | running
  | done
  | skipped
deriving DecidableEq

/-- Result of the external Analyzer call for one image: a result object, or
an exception message. -/
inductive Outcome where
  | ok (r : FishResult)
  | err (msg : String)
deriving DecidableEq

/-- Whether an outcome is a success. -/
def isOk : Outcome → Bool
  | .ok _ => true
  | .err _ => false

/-- The result object of a successful outcome. -/
def okResultOf (o : ℕ → Outcome) (i : ℕ) : FishResult :=
  match o i with
  | .ok r => r
  | .err _ => ⟨"", "", .failed, [], [], 0, 0, none⟩

/-- The pydantic `CalibrationInfo` model: `pixels_per_inch` and
`grid_square_size_inches` carry `gt=0` bounds, validated on construction. -/
structure CalibrationInfo where
  pixels_per_inch : ℚ
  grid_square_size_inches : ℚ
  detected_squares : ℤ
  calibration_quality : String
deriving DecidableEq

/-- Constructing a `CalibrationInfo` validates the `gt=0` field bounds and
raises a pydantic `ValidationError` when one fails. -/
def mkCalibrationInfo (ppi gsz : ℚ) (squares : ℤ) (quality : String) :
    Except String CalibrationInfo :=
  if ppi ≤ 0 then
    .error "ValidationError: pixels_per_inch must be greater than 0"
  else if gsz ≤ 0 then
    .error "ValidationError: grid_square_size_inches must be greater than 0"
  else .ok ⟨ppi, gsz, squares, quality⟩

/-- The `FishAnalysisResult` synthesized in the except branch of
`process_one`: it passes `pixels_per_inch=0.0` to `CalibrationInfo`, so the
construction itself raises a `ValidationError` (the generated uuid is
irrelevant and fixed). -/
def buildFailedResult (imagePath errMsg : String) (grid : ℚ) :
    Except String FishResult :=
  match mkCalibrationInfo 0 grid 0 "failed" with
  | .error e => .error e
  | .ok _ =>
    .ok { analysis_id := "generated-uuid", image_path := imagePath,
          status := .failed, measurements := [], confidences := [],
          processing_time := 0, processed_at := 0,
          error_message := some errMsg }

/-- The mutable per-batch record (`batch_analysis_status[batch_id]`)
together with the local state of the background coroutine. `localResults`
is the closure-local `results` list (only copied into the record at
finalization); `doneOrder` is bookkeeping recording the indices of
successfully completed tasks in completion order; `phase` tracks each
task coroutine. -/
structure BatchState where
  status : AnalysisStatus
  validImages : List String
  total_images : ℕ
  completed_images : ℕ
  failed_images : ℕ
  resultsStored : List FishResult
  invalid_images : List String
  error_message : Option String
  current_image : Option String
  started : Bool
  finalized : Bool
  crashed : Bool
  localResults : List FishResult
  doneOrder : List ℕ
  phase : ℕ → TaskPhase

/-- An inert batch state (used only as a fallback when destructuring an
`Except`). -/
def defaultBatchState : BatchState :=
  { status := .pending, validImages := [], total_images := 0,
    completed_images := 0, failed_images := 0, resultsStored := [],
    invalid_images := [], error_message := none, current_image := none,
    started := false, finalized := false, crashed := false,
    localResults := [], doneOrder := [], phase := fun _ => .notStarted }

/-- `start_batch_analysis`: classify each reference as valid or invalid
(resolution against the store or the filesystem is the external predicate
`resolves`), reject an all-invalid batch, and initialize the record:
status PENDING, `total_images = len(valid_images)`, `completed_images = 0`,
`failed_images = len(invalid_images)`, `results = []`. -/
def startBatchAnalysis (images : List String) (resolves : String → Bool) :
    Except String BatchState :=
  let valid := images.filter resolves
  let invalid := images.filter (fun p => !(resolves p))
  if valid.isEmpty then .error "No valid images found"
  else .ok { defaultBatchState with
    validImages := valid
    total_images := valid.length
    failed_images := invalid.length
    invalid_images := invalid }

/-- Events of the batch execution schedule. -/
inductive BatchEvent where
  | beginProc
  | startTask (i : ℕ)
  | finishTask (i : ℕ)
  | cancel
  | finalize
deriving DecidableEq

/-- Number of tasks currently holding a semaphore permit. -/
def runningCount (s : BatchState) : ℕ :=
  ((List.range s.total_images).filter (fun i => s.phase i == .running)).length

/-- Every task coroutine has returned (`asyncio.gather` resolved). -/
def allSettled (s : BatchState) : Bool :=
  (List.range s.total_images).all
    (fun i => s.phase i == .done || s.phase i == .skipped)

/-- One atomic step of the batch system (see the section comment for the
correspondence with the source). -/
def step (limit : ℕ) (o : ℕ → Outcome) (grid : ℚ) (s : BatchState) :
    BatchEvent → BatchState
  | .beginProc =>
    if s.started then s
    else { s with
      status := .processing
      started := true }
  | .startTask i =>
    if s.started && decide (i < s.total_images) && (s.phase i == .notStarted)
        && decide (runningCount s < limit) then
      if s.status == .failed then
        { s with phase := fun j => if j = i then .skipped else s.phase j }
      else
        { s with
          phase := fun j => if j = i then .running else s.phase j
          current_image := s.validImages[i]? }
    else s
  | .finishTask i =>
    if s.phase i == .running then
      match o i with
      | .ok r =>
        { s with
          phase := fun j => if j = i then .done else s.phase j
          localResults := s.localResults ++ [r]
          completed_images := s.completed_images + 1
          doneOrder := s.doneOrder ++ [i] }
      | .err e =>
        match buildFailedResult ((s.validImages[i]?).getD "") e grid with
        | .ok r =>
          { s with
            phase := fun j => if j = i then .done else s.phase j
            localResults := s.localResults ++ [r]
            failed_images := s.failed_images + 1 }
        | .error ve =>
          if s.crashed then
            { s with
              phase := fun j => if j = i then .done else s.phase j
              failed_images := s.failed_images + 1 }
          else
            { s with
              phase := fun j => if j = i then .done else s.phase j
              failed_images := s.failed_images + 1
              status := .failed
              error_message := some ve
              crashed := true }
    else s
  | .cancel =>
    if s.status == .completed || s.status == .failed then s
    else { s with
      status := .failed
      error_message := some "Analysis cancelled by user" }
  | .finalize =>
    if s.started && !s.crashed && !s.finalized && allSettled s then
      { s with
        current_image := none
        resultsStored := s.localResults
        status := if s.status == .failed then s.status else .completed
        finalized := true }
    else s

/-- Run a schedule. -/
def runTrace (limit : ℕ) (o : ℕ → Outcome) (grid : ℚ) (s : BatchState)
    (es : List BatchEvent) : BatchState :=
  es.foldl (step limit o grid) s

/-- The `cancel_batch_analysis` endpoint: rejects a terminal batch with an
error and otherwise marks the record FAILED with the cancellation
message. -/
def cancelBatchAnalysis (s : BatchState) : Except String BatchState :=
  if s.status == .completed || s.status == .failed then
    .error "Cannot cancel completed analysis"
  else .ok { s with
    status := .failed
    error_message := some "Analysis cancelled by user" }

/-- Number of finished tasks whose Analyzer call succeeded. -/
def doneOkCount (o : ℕ → Outcome) (s : BatchState) : ℕ :=
  ((List.range s.total_images).filter
    (fun i => s.phase i == .done && isOk (o i))).length

/-- Number of finished tasks whose Analyzer call raised. -/
def doneErrCount (o : ℕ → Outcome) (s : BatchState) : ℕ :=
  ((List.range s.total_images).filter
    (fun i => s.phase i == .done && !isOk (o i))).length

/-- The state invariant of the batch system, tying the public counters to
the task phases and outcomes. -/
structure BatchInv (o : ℕ → Outcome) (s : BatchState) : Prop where
  completed_eq : s.completed_images = doneOkCount o s
  failed_eq : s.failed_images = s.invalid_images.length + doneErrCount o s
  local_eq : s.localResults = s.doneOrder.map (okResultOf o)
  doneOrder_nodup : s.doneOrder.Nodup
  doneOrder_mem : ∀ i, i ∈ s.doneOrder ↔
    (i < s.total_images ∧ s.phase i = .done ∧ isOk (o i) = true)
  skipped_failed : ∀ i, s.phase i = .skipped →
    s.status = .failed ∧ s.started = true
  completed_final : s.status = .completed → s.finalized = true
  finalized_props : s.finalized = true →
    (∀ i, i < s.total_images → s.phase i = .done ∨ s.phase i = .skipped)
    ∧ s.resultsStored = s.localResults ∧ s.crashed = false
    ∧ s.started = true
    ∧ (s.status = .completed ∨ s.status = .failed)
  not_finalized_stored : s.finalized = false → s.resultsStored = []
  crashed_failed : s.crashed = true → s.status = .failed ∧ s.started = true
  not_crashed_no_err : s.crashed = false → doneErrCount o s = 0
  phase_oob : ∀ i, s.total_images ≤ i → s.phase i = .notStarted
  phase_started : ∀ i, s.phase i ≠ .notStarted → s.started = true

/-! ## Paginated results endpoint (C9) -/

/-- Substring test on character lists (Python `needle in hay`). -/
def containsSub (n : List Char) : List Char → Bool
  | [] => n.isEmpty
  | c :: t => n.isPrefixOf (c :: t) || containsSub n t

/-- Python `needle in hay` on strings. -/
def strContains (hay needle : String) : Bool :=
  containsSub needle.data hay.data

/-- The confidence sort key: mean detection confidence, 0 when there are no
detections. -/
def avgConfidence (r : FishResult) : ℚ :=
  if r.confidences.isEmpty then 0
  else r.confidences.sum / (r.confidences.length : ℚ)

/-- Stable insertion of one element: `x` goes before the first element it
must strictly precede, hence after every element with an equal key. -/
def insertStable (lt : FishResult → FishResult → Bool) (x : FishResult) :
    List FishResult → List FishResult
  | [] => [x]
  | y :: ys => if lt x y then x :: y :: ys else y :: insertStable lt x ys

/-- Stable sort by repeated insertion, processing the list left to right:
elements with equal keys keep their original relative order, like Python
`list.sort`. -/
def stableSortBy (lt : FishResult → FishResult → Bool)
    (l : List FishResult) : List FishResult :=
  l.foldl (fun acc x => insertStable lt x acc) []

/-- Strict precedence of Python `list.sort(key=k, reverse=rev)`. -/
def ltOf (key : FishResult → ℚ) (reverse : Bool) (x y : FishResult) : Bool :=
  if reverse then decide (key y < key x) else decide (key x < key y)

/-- The sort dispatch of `get_batch_results_paginated`: only the three
known sort keys trigger a sort; any other `sort_by` leaves the list as
is. -/
def pySortResults (sort_by sort_order : String) (l : List FishResult) :
    List FishResult :=
  let reverse := sort_order == "desc"
  if sort_by == "created_at" then
    stableSortBy (ltOf (fun r => r.processed_at) reverse) l
  else if sort_by == "processing_time" then
    stableSortBy (ltOf (fun r => r.processing_time) reverse) l
  else if sort_by == "confidence" then
    stableSortBy (ltOf avgConfidence reverse) l
  else l

/-- The pagination metadata dict. -/
structure PaginationMeta where
  total_items : ℕ
  items_per_page : ℕ
  current_page : ℤ
  total_pages : ℕ
  has_next : Bool
  has_previous : Bool
  next_page : Option ℤ
  previous_page : Option ℤ
deriving DecidableEq

/-- `get_batch_results_paginated`: filter by status, filter by search term,
sort, clamp the page number and slice. Python `filtered_results.sort(...)`
sorts in place: when no status filter and no search term are given,
`filtered_results` aliases `batch_info["results"]`, so the sort reorders
the stored list itself; when either filter is given, a fresh list is
sorted and the stored list is untouched. The returned state records this
write-through. -/
def getBatchResultsPaginated (s : BatchState) (page : ℤ) (per_page : ℕ)
    (status_filter : Option AnalysisStatus) (sort_by sort_order : String)
    (search : Option String) :
    (List FishResult × PaginationMeta) × BatchState :=
  let all_results := s.resultsStored
  let afterStatus := match status_filter with
    | some st => all_results.filter (fun r => r.status == st)
    | none => all_results
  let afterSearch := match search with
    | some q => afterStatus.filter (fun r =>
        strContains r.image_path.toLower q.toLower
        || strContains r.analysis_id.toLower q.toLower)
    | none => afterStatus
  let sorted := pySortResults sort_by sort_order afterSearch
  let total_items := sorted.length
  let total_pages := max 1 ((total_items + per_page - 1) / per_page)
  let pageC : ℤ := max 1 (min page (total_pages : ℤ))
  let start_idx : ℕ := (pageC - 1).toNat * per_page
  let page_results := (sorted.drop start_idx).take per_page
  let meta : PaginationMeta :=
    { total_items := total_items, items_per_page := per_page,
      current_page := pageC, total_pages := total_pages,
      has_next := decide (pageC < (total_pages : ℤ)),
      has_previous := decide (1 < pageC),
      next_page := if pageC < (total_pages : ℤ) then some (pageC + 1) else none,
      previous_page := if 1 < pageC then some (pageC - 1) else none }
  let newStored := match status_filter, search with
    | none, none => sorted
    | _, _ => s.resultsStored
  ((page_results, meta), { s with resultsStored := newStored })

/-- The plain `get_batch_results` endpoint, restricted to the results list
it returns: rejected while PROCESSING, otherwise the stored slice. -/
def getBatchResults (s : BatchState) : Except String (List FishResult) :=
  if s.status == .processing then
    .error "Batch analysis still in progress. Check status first."
  else .ok s.resultsStored

/-- Witness result for the C8 theorem: one completed analysis. -/
def witnessResultOk : FishResult :=
  { analysis_id := "a1", image_path := "img1.jpg", status := .completed,
    measurements := [("total_length", 10)], confidences := [1],
    processing_time := 0, processed_at := 0, error_message := none }

/-- Trivial concrete engine subroutines used by closed witnesses. -/
def witnessFns : EngineFns :=
  { distributions := fun _ => [],
    correlationsOf := fun _ => [],
    insightsOf := fun _ _ _ => [],
    sizeClassification := fun _ =>
      ⟨⟨0, some 0, some 0, some 0⟩, ⟨0, some 0, some 0, some 0⟩,
        ⟨0, some 0, some 0, some 0⟩⟩,
    qualityMetrics := fun _ => ⟨0, 0, 0, some 0⟩ }

/-- A concrete failed result used by counterexamples. -/
def cxResultFailed : FishResult :=
  { analysis_id := "a2", image_path := "img2.jpg", status := .failed,
    measurements := [], confidences := [], processing_time := 0,
    processed_at := 0, error_message := some "boom" }

/-- Row of the C3 counterexample dataframe: columns `a` and `b` always
present, column `c` present only when `hasC` holds. -/
def cxRow (hasC : Bool) : Row := fun c =>
  if c = "a" then some 1
  else if c = "b" then some 2
  else if c = "c" then (if hasC then some 3 else none)
  else none

/-- C3 counterexample dataframe: 6 rows; measurements `a` and `b` present
in all 6 rows, measurement `c` present in only 2 of them. -/
def cxDF : DFrame :=
  { cols := ["analysis_id", "image_path", "confidence", "a", "b", "c"],
    rows := [cxRow true, cxRow true, cxRow false, cxRow false, cxRow false,
      cxRow false] }

/-- Constant correlation kernel used by concrete instances. -/
def cxCorrf : List Row → String → String → PFloat := fun _ _ _ => some 1

/-- Constant p-value kernel used by concrete instances. -/
def cxPvalf : List Row → String → String → PFloat := fun _ _ _ => some 0

/-- Dataframe with two fully present measurement columns and three rows,
used to witness the amended C3 theorem. -/
def wDF : DFrame :=
  { cols := ["a", "b"],
    rows := [cxRow true, cxRow true, cxRow true] }

/-- A successful concrete result used by batch instances. -/
def wRes0 : FishResult :=
  { analysis_id := "r0", image_path := "good1", status := .completed,
    measurements := [("total_length", 10)], confidences := [1],
    processing_time := 0, processed_at := 0, error_message := none }

/-- A second successful concrete result (distinct id). -/
def wRes1 : FishResult :=
  { analysis_id := "r1", image_path := "good2", status := .completed,
    measurements := [("total_length", 12)], confidences := [1],
    processing_time := 0, processed_at := 0, error_message := none }

/-- A resolver accepting every reference. -/
def bResolves : String → Bool := fun _ => true

/-- Two valid images. -/
def bImages : List String := ["good1", "good2"]

/-- Outcomes for the two-image batch. -/
def bOutcome : ℕ → Outcome := fun i => if i = 0 then .ok wRes0 else .ok wRes1

/-- The created record of the two-image batch. -/
def bInit : BatchState :=
  match startBatchAnalysis bImages bResolves with
  | .ok s => s
  | .error _ => defaultBatchState

/-- A schedule in which task 1 finishes before task 0. -/
def bTraceSwap : List BatchEvent :=
  [.beginProc, .startTask 0, .startTask 1, .finishTask 1, .finishTask 0,
    .finalize]

/-- One invalid and one valid image. -/
def cImages : List String := ["bad1", "good1"]

/-- A resolver accepting only the valid image. -/
def cResolves : String → Bool := fun p => p == "good1"

/-- The created record of the invalid-plus-valid batch. -/
def cInit : BatchState :=
  match startBatchAnalysis cImages cResolves with
  | .ok s => s
  | .error _ => defaultBatchState

/-- The straight-line schedule of the one-task batch. -/
def cTrace : List BatchEvent :=
  [.beginProc, .startTask 0, .finishTask 0, .finalize]

/-- Three valid images. -/
def fImages : List String := ["i1", "i2", "i3"]

/-- Outcomes of the three-image batch: the second Analyzer call raises. -/
def fOutcome : ℕ → Outcome :=
  fun i => if i = 0 then .ok wRes0 else if i = 1 then .err "boom" else .ok wRes1

/-- The created record of the three-image batch. -/
def fInit : BatchState :=
  match startBatchAnalysis fImages bResolves with
  | .ok s => s
  | .error _ => defaultBatchState

/-- Schedule of the three-image batch: all three start (limit 3), then
finish in order. -/
def fTrace : List BatchEvent :=
  [.beginProc, .startTask 0, .startTask 1, .startTask 2, .finishTask 0,
    .finishTask 1, .finishTask 2, .finalize]

/-- Outcome map of the one-image cancellation batch. -/
def gOutcome : ℕ → Outcome := fun _ => .ok wRes0

/-- The created record of the one-image cancellation batch. -/
def gInit : BatchState :=
  match startBatchAnalysis ["g1"] bResolves with
  | .ok s => s
  | .error _ => defaultBatchState

/-- The one-image batch right after processing began. -/
def gProc : BatchState := runTrace 3 gOutcome 1 gInit [.beginProc]

/-- The same batch cancelled while PROCESSING. -/
def gCancelled : BatchState := step 3 gOutcome 1 gProc .cancel

/-- A result created later (larger `processed_at`). -/
def r9a : FishResult :=
  { analysis_id := "p1", image_path := "x.jpg", status := .completed,
    measurements := [], confidences := [], processing_time := 0,
    processed_at := 2, error_message := none }

/-- A result created earlier (smaller `processed_at`). -/
def r9b : FishResult :=
  { analysis_id := "p2", image_path := "y.jpg", status := .completed,
    measurements := [], confidences := [], processing_time := 0,
    processed_at := 1, error_message := none }

/-- A completed batch whose stored results are in recorded order
(`r9a` first, then `r9b`). -/
def s9 : BatchState :=
  { status := .completed, validImages := ["x.jpg", "y.jpg"],
    total_images := 2, completed_images := 2, failed_images := 0,
    resultsStored := [r9a, r9b], invalid_images := [],
    error_message := none, current_image := none, started := true,
    finalized := true, crashed := false, localResults := [r9a, r9b],
    doneOrder := [0, 1], phase := fun _ => .done }

/-- A freshly put entry is never already expired at the time of the put. -/
theorem ttlExpiry_not_expired (d : String) (ct : Option String)
    (ttl : Option ℤ) (now : ℚ) :
    entryExpired ⟨d, ct, ttlExpiry ttl now⟩ now = false := by
  cases ttl with
  | none => rfl
  | some n =>
    by_cases h : 0 < n
    · simp only [entryExpired, ttlExpiry, if_pos h, decide_eq_false_iff_not, not_lt]
      have : (0 : ℚ) ≤ (n : ℚ) := by exact_mod_cast le_of_lt h
      linarith
    · simp [entryExpired, ttlExpiry, if_neg h]

/-- Immediately after `put key`, the map holds exactly the fresh entry at
`key` (the amortized sweep cannot remove it because it is not expired). -/
theorem put_data_self (key d : String) (ct : Option String) (ttl : Option ℤ)
    (now : ℚ) (s : InMemoryStorage) :
    (put key d ct ttl now s).data key = some ⟨d, ct, ttlExpiry ttl now⟩ := by
  unfold put maybeGc
  by_cases hgc : now - s.last_gc < s.gc_interval
  · simp [hgc]
  · simp [hgc, ttlExpiry_not_expired]

/-- C7: store round trip. `put(k, b, ct)` followed immediately by `get(k)`
returns exactly `(b, ct)`; once the TTL has elapsed, `get(k)` returns a miss
(a normal absent value) and removes the expired entry; and for every key and
store state, `exists(k)` returns true exactly when `get(k)` would return a
value. -/
theorem store_round_trip (key d : String) (ct : Option String)
    (ttl : Option ℤ) (now : ℚ) (s : InMemoryStorage) :
    (get key now (put key d ct ttl now s)).1 = some (d, ct)
    ∧ (∀ n : ℤ, ttl = some n → 0 < n → ∀ t : ℚ, now + (n : ℚ) < t →
        (get key t (put key d ct ttl now s)).1 = none
        ∧ ((get key t (put key d ct ttl now s)).2).data key = none)
    ∧ (∀ (k : String) (t : ℚ) (st : InMemoryStorage),
        (existsKey k t st).1 = ((get k t st).1).isSome) := by
  refine ⟨?_, ?_, ?_⟩
  · simp [get, put_data_self, ttlExpiry_not_expired]
  · intro n hn hpos t ht
    subst hn
    have hexp : entryExpired ⟨d, ct, ttlExpiry (some n) now⟩ t = true := by
      simp [entryExpired, ttlExpiry, if_pos hpos, ht]
    simp [get, put_data_self, hexp]
  · intro k t st
    rw [get, existsKey]
    cases st.data k with
    | none => rfl
    | some e =>
      by_cases h : entryExpired e t = true
      · simp [h]
      · simp [h]

/-- Witness for C7 at concrete inputs: put at time 0 with ttl 10 into the
empty store, read back at time 0 and at time 11, and check the
get/exists agreement on a concrete state. -/
theorem store_round_trip_witness :
    (get "k" 0 (put "k" "payload" (some "image/jpeg") (some 10) 0 emptyStorage)).1
      = some ("payload", some "image/jpeg")
    ∧ (get "k" 11 (put "k" "payload" (some "image/jpeg") (some 10) 0 emptyStorage)).1 = none
    ∧ (existsKey "k" 0 emptyStorage).1 = ((get "k" 0 emptyStorage).1).isSome := by
  have h := store_round_trip "k" "payload" (some "image/jpeg") (some 10) 0 emptyStorage
  exact ⟨h.1, (h.2.1 10 rfl (by norm_num) 11 (by norm_num)).1,
    h.2.2 "k" 0 emptyStorage⟩

/-- C10: a `put` with ttl 0 or a negative ttl stores the entry with no
expiry, exactly as if the ttl had been omitted (the Python guard
`ttl_seconds and ttl_seconds > 0` is false for 0 and for negatives);
only a strictly positive ttl produces an expiry instant. -/
theorem put_nonpositive_ttl (key d : String) (ct : Option String)
    (now : ℚ) (s : InMemoryStorage) :
    (∀ n : ℤ, n ≤ 0 → put key d ct (some n) now s = put key d ct none now s)
    ∧ (∀ n : ℤ, 0 < n →
        (put key d ct (some n) now s).data key = some ⟨d, ct, some (now + (n : ℚ))⟩) := by
  constructor
  · intro n hn
    have h : ttlExpiry (some n) now = ttlExpiry none now := by
      simp [ttlExpiry, if_neg (not_lt.mpr hn)]
    unfold put
    rw [h]
  · intro n hn
    rw [put_data_self]
    simp [ttlExpiry, if_pos hn]

/-- Witness for C10 at concrete inputs: ttl 0 and ttl -5 behave like no
ttl; ttl 10 at time 2 yields expiry instant 12. -/
theorem put_nonpositive_ttl_witness :
    put "k" "b" none (some 0) 2 emptyStorage = put "k" "b" none none 2 emptyStorage
    ∧ put "k" "b" none (some (-5)) 2 emptyStorage = put "k" "b" none none 2 emptyStorage
    ∧ (put "k" "b" none (some 10) 2 emptyStorage).data "k" = some ⟨"b", none, some 12⟩ := by
  have h := put_nonpositive_ttl "k" "b" none 2 emptyStorage
  refine ⟨h.1 0 (by norm_num), h.1 (-5) (by norm_num), ?_⟩
  have h2 := h.2 10 (by norm_num)
  rw [h2]
  norm_num

/-- Sanitizing a number yields a finite number (a non-finite one becomes
`0.0`, a finite one is kept). -/
theorem sanitizeValue_num (x : PFloat) :
    sanitizeValue (.num x) = .num (some (x.getD 0)) := by
  cases x <;> rfl

/-- Sanitizing a string leaves it unchanged. -/
theorem sanitizeValue_str (s : String) :
    sanitizeValue (.str s) = .str s := rfl

/-- Sanitizing an integer leaves it unchanged. -/
theorem sanitizeValue_int (n : ℤ) :
    sanitizeValue (.int n) = .int n := rfl

/-- Sanitized distribution lists have only finite numbers. -/
theorem allFinite_sanitize_dists (l : List DistributionOut) :
    allFiniteList (sanitizeListElems (l.map distToPy)) = true := by
  induction l with
  | nil => rfl
  | cons d rest ih =>
    simp [distToPy, sanitizeListElems, allFiniteList, sanitizeDict,
      sanitizeDictVal, allFinite, allFiniteDict, sanitizeValue_num,
      sanitizeValue_str, sanitizeValue_int, ih]

/-- Sanitized correlation lists have only finite numbers. -/
theorem allFinite_sanitize_corrs (l : List CorrelationOut) :
    allFiniteList (sanitizeListElems (l.map corrToPy)) = true := by
  induction l with
  | nil => rfl
  | cons c rest ih =>
    simp [corrToPy, sanitizeListElems, allFiniteList, sanitizeDict,
      sanitizeDictVal, allFinite, allFiniteDict, sanitizeValue_num,
      sanitizeValue_str, sanitizeValue_int, ih]

/-- Sanitized insight lists have only finite numbers. -/
theorem allFinite_sanitize_insights (l : List InsightOut) :
    allFiniteList (sanitizeListElems (l.map insightToPy)) = true := by
  induction l with
  | nil => rfl
  | cons i rest ih =>
    cases hs : i.statistical_significance with
    | none =>
      simp [insightToPy, hs, sanitizeListElems, allFiniteList, sanitizeDict,
        sanitizeDictVal, allFinite, allFiniteDict, sanitizeValue_num,
        sanitizeValue_str, sanitizeValue_int, ih]
    | some p =>
      simp [insightToPy, hs, sanitizeListElems, allFiniteList, sanitizeDict,
        sanitizeDictVal, allFinite, allFiniteDict, sanitizeValue_num,
        sanitizeValue_str, sanitizeValue_int, ih]

/-- The sanitized size classification has only finite numbers (including
the two elements of each nested `range` list). -/
theorem allFinite_sanitize_size (s : SizeClassificationOut) :
    allFinite (sanitizeDictVal (sizeToPy s)) = true := by
  simp [sizeToPy, bucketToPy, sanitizeDictVal, sanitizeDict,
    sanitizeListElems, allFinite, allFiniteDict, allFiniteList,
    sanitizeValue_num, sanitizeValue_str,
    sanitizeValue_int]

/-- The sanitized quality metrics have only finite numbers. -/
theorem allFinite_sanitize_quality (q : QualityOut) :
    allFinite (sanitizeDictVal (qualityToPy q)) = true := by
  simp [qualityToPy, sanitizeDictVal, sanitizeDict, allFinite, allFiniteDict,
    sanitizeValue_num, sanitizeValue_str,
    sanitizeValue_int]

/-- C8: every numeric value in the object returned by `analyze_population`
is finite — whatever NaN or infinity the distribution, correlation,
insight, size-classification or quality subcomputations produce, the final
recursive `_sanitize_dict` pass replaces it with `0.0` in every numeric
field before the result is returned. -/
theorem analyze_population_output_finite (results : List FishResult)
    (fns : EngineFns) (v : PyVal)
    (h : analyzePopulation results fns = .ok v) : allFinite v = true := by
  unfold analyzePopulation at h
  by_cases he : (results.filter (fun r => r.status == .completed)).isEmpty
  · simp [he] at h
  · simp only [he, if_neg, Bool.false_eq_true, not_false_eq_true,
      reduceIte, Except.ok.injEq] at h
    subst h
    have h1 := allFinite_sanitize_dists
      (fns.distributions (results.filter (fun r => r.status == .completed)))
    have h2 := allFinite_sanitize_corrs
      (fns.correlationsOf (results.filter (fun r => r.status == .completed)))
    have h3 := allFinite_sanitize_insights
      (fns.insightsOf (results.filter (fun r => r.status == .completed))
        (fns.distributions (results.filter (fun r => r.status == .completed)))
        (fns.correlationsOf (results.filter (fun r => r.status == .completed))))
    simp [assembleResult, sanitizeDict, sanitizeDictVal, allFinite,
      allFiniteDict, allFiniteList, sanitizeListElems, sizeToPy, qualityToPy,
      bucketToPy, sanitizeValue_num, sanitizeValue_str, sanitizeValue_int,
      h1, h2, h3]

/-- Witness for C8 at a concrete input: the engine output on one completed
result is entirely finite. -/
theorem analyze_population_output_finite_witness :
    (analyzePopulation [witnessResultOk] witnessFns).map allFinite
      = Except.ok true := by
  cases hv : analyzePopulation [witnessResultOk] witnessFns with
  | error e =>
    rw [analyzePopulation] at hv
    simp [witnessResultOk, List.filter] at hv
  | ok v =>
    have := analyze_population_output_finite [witnessResultOk] witnessFns v hv
    simp [Except.map, this]

/-- Filtering the completed results twice equals filtering once. -/
theorem filter_completed_idem (l : List FishResult) :
    (l.filter (fun r => r.status == AnalysisStatus.completed)).filter
        (fun r => r.status == AnalysisStatus.completed)
      = l.filter (fun r => r.status == AnalysisStatus.completed) := by
  simp [List.filter_filter]

/-- C4 (amended): the population-stats endpoint computes its statistics
only over the completed subset of the batch results, but the engine then
recomputes the totals over that already-filtered input: the returned
`failed_analyses` is always 0 (not the batch failure count), and
`total_fish`/`successful_analyses` both equal the completed count. -/
theorem population_stats_counts (results : List FishResult) (fns : EngineFns)
    (v : PyVal) (h : getPopulationStatistics .completed results fns = .ok v) :
    dictGet v "failed_analyses" = some (.int 0)
    ∧ dictGet v "successful_analyses"
        = some (.int ((results.filter (fun r => r.status == AnalysisStatus.completed)).length : ℤ))
    ∧ dictGet v "total_fish"
        = some (.int ((results.filter (fun r => r.status == AnalysisStatus.completed)).length : ℤ)) := by
  unfold getPopulationStatistics at h
  by_cases h0 : results.isEmpty
  · simp [h0] at h
  · by_cases h1 : (results.filter (fun r => r.status == AnalysisStatus.completed)).isEmpty
    · simp [h0, h1] at h
    · unfold analyzePopulation at h
      simp only [h0, h1, filter_completed_idem, Bool.false_eq_true, ne_eq,
        not_true_eq_false, not_false_eq_true, if_false, reduceIte,
        Except.ok.injEq] at h
      subst h
      refine ⟨?_, ?_, ?_⟩ <;>
        simp [assembleResult, sanitizeDict, sanitizeDictVal, sanitizeValue_int,
          dictGet, lookupPy, sub_self]

/-- Counterexample to C4 as stated: a completed batch holding one completed
and one failed result has one failed result, yet the endpoint reports
`failed_analyses = 0` (the engine counts failures among the successful
subset it is handed, not in the batch). -/
theorem population_stats_counterexample :
    (getPopulationStatistics .completed [witnessResultOk, cxResultFailed]
        witnessFns).toOption.bind (fun v => dictGet v "failed_analyses")
      = some (.int 0)
    ∧ ([witnessResultOk, cxResultFailed].filter
        (fun r => r.status == AnalysisStatus.failed)).length = 1 := by
  constructor
  · rfl
  · rfl

/-- Witness for C4 at a concrete input: the same two-result batch, with the
hypotheses of the amended theorem discharged concretely. -/
theorem population_stats_counts_witness :
    (getPopulationStatistics .completed [witnessResultOk, cxResultFailed]
        witnessFns).toOption.bind (fun v => dictGet v "successful_analyses")
      = some (.int 1) := by
  cases hv : getPopulationStatistics .completed [witnessResultOk, cxResultFailed] witnessFns with
  | error e =>
    rw [getPopulationStatistics] at hv
    simp [analyzePopulation, witnessResultOk, cxResultFailed, List.filter] at hv
  | ok v =>
    have h := (population_stats_counts [witnessResultOk, cxResultFailed]
      witnessFns v hv).2.1
    simp only [Except.toOption, Option.bind, h]
    rfl

/-- Both components of a pair produced by the nested pair loop are columns
of the enumerated list. -/
theorem mem_pairsOf {l : List α} {p : α × α} (h : p ∈ pairsOf l) :
    p.1 ∈ l ∧ p.2 ∈ l := by
  induction l with
  | nil => simp [pairsOf] at h
  | cons x xs ih =>
    simp only [pairsOf, List.mem_append, List.mem_map] at h
    rcases h with ⟨y, hy, hp⟩ | h
    · rw [← hp]
      exact ⟨List.mem_cons_self x xs, List.mem_cons_of_mem x hy⟩
    · obtain ⟨h1, h2⟩ := ih h
      exact ⟨List.mem_cons_of_mem x h1, List.mem_cons_of_mem x h2⟩

/-- C3 (amended): correlations are evaluated over the globally complete
rows (`dropna` across all measurement columns at once). When fewer than two
measurement columns or fewer than three complete rows exist, no correlation
at all is emitted — so a sparse column suppresses every pair, including
pairs of fully present columns. Otherwise the output contains exactly the
column pairs whose coefficient is finite with absolute value above 0.3,
each tagged with the strength class of its absolute coefficient. -/
theorem calc_correlations_amended (df : DFrame)
    (corrf pvalf : List Row → String → String → PFloat) :
    ((measurementColumns df).length < 2
        ∨ (completeRows df (measurementColumns df)).length < 3 →
      calcCorrelations df corrf pvalf = [])
    ∧ (∀ e ∈ calcCorrelations df corrf pvalf, ∃ c1 c2,
        (c1, c2) ∈ pairsOf (measurementColumns df)
        ∧ corrf (completeRows df (measurementColumns df)) c1 c2
            = some e.correlation_coefficient
        ∧ 3/10 < |e.correlation_coefficient|
        ∧ e.relationship_strength = classifyStrength |e.correlation_coefficient|
        ∧ e.measurement1 = colTitle c1 ∧ e.measurement2 = colTitle c2)
    ∧ (∀ c1 c2 r, ¬ (measurementColumns df).length < 2 →
        ¬ (completeRows df (measurementColumns df)).length < 3 →
        (c1, c2) ∈ pairsOf (measurementColumns df) →
        corrf (completeRows df (measurementColumns df)) c1 c2 = some r →
        3/10 < |r| →
        ∃ e ∈ calcCorrelations df corrf pvalf,
          e.correlation_coefficient = r
          ∧ e.relationship_strength = classifyStrength |r|
          ∧ e.measurement1 = colTitle c1 ∧ e.measurement2 = colTitle c2) := by
  refine ⟨?_, ?_, ?_⟩
  · intro h
    unfold calcCorrelations
    rcases h with h | h
    · simp [h]
    · by_cases h2 : (measurementColumns df).length < 2
      · simp [h2]
      · simp [h2, h]
  · intro e he
    unfold calcCorrelations at he
    by_cases h2 : (measurementColumns df).length < 2
    · simp [h2] at he
    · by_cases h3 : (completeRows df (measurementColumns df)).length < 3
      · simp [h2, h3] at he
      · simp only [h2, h3, if_false, reduceIte, List.mem_filterMap] at he
        obtain ⟨⟨c1, c2⟩, hmem, hf⟩ := he
        refine ⟨c1, c2, hmem, ?_⟩
        unfold corrForPair at hf
        by_cases hc : ((measurementColumns df).contains c1
            && (measurementColumns df).contains c2) = true
        · rw [if_pos hc] at hf
          cases hr : corrf (completeRows df (measurementColumns df)) c1 c2 with
          | none => rw [hr] at hf; simp at hf
          | some r =>
            rw [hr] at hf
            by_cases habs : (3 : ℚ)/10 < |r|
            · simp only [habs, ite_true, Option.some.injEq] at hf
              subst hf
              exact ⟨rfl, habs, rfl, rfl, rfl⟩
            · simp [habs] at hf
        · rw [if_neg hc] at hf
          simp at hf
  · intro c1 c2 r h2 h3 hmem hr habs
    have hc12 := mem_pairsOf hmem
    unfold calcCorrelations
    simp only [h2, h3, if_false, reduceIte]
    refine ⟨⟨colTitle c1, colTitle c2, r,
        (match pvalf (completeRows df (measurementColumns df)) c1 c2 with
         | none => 1 | some q => q), classifyStrength |r|⟩,
      List.mem_filterMap.mpr ⟨(c1, c2), hmem, ?_⟩, rfl, rfl, rfl, rfl⟩
    unfold corrForPair
    rw [if_pos (by simp [List.contains, List.elem_iff, hc12.1, hc12.2]), hr]
    simp only [habs, ite_true]

/-- Counterexample to C3 as stated: in a 6-row frame where a second
measurement is present in only 2 rows, the pair of fully present columns
`a`, `b` has 6 rows present in both and coefficient 1 with absolute value
above 0.3 — the claim says it is evaluated and emitted — yet the code
emits no correlation at all, because the global `dropna` leaves only 2
complete rows, below the 3-row minimum. -/
theorem correlations_counterexample :
    calcCorrelations cxDF cxCorrf cxPvalf = []
    ∧ (cxDF.rows.filter (fun r => (r "a").isSome && (r "b").isSome)).length = 6
    ∧ ("a", "b") ∈ pairsOf (measurementColumns cxDF)
    ∧ cxCorrf (cxDF.rows.filter (fun r => (r "a").isSome && (r "b").isSome))
        "a" "b" = some 1
    ∧ (3 : ℚ)/10 < |(1 : ℚ)| := by
  refine ⟨rfl, rfl, ?_, rfl, by rw [abs_one]; norm_num⟩
  simp [pairsOf, measurementColumns, cxDF]

/-- Witness for the amended C3 theorem at a concrete input: with 3 complete
rows and coefficient 1 on the pair of the two columns, an entry classified
very strong is emitted. -/
theorem calc_correlations_amended_witness :
    ∃ e ∈ calcCorrelations wDF cxCorrf cxPvalf,
      e.correlation_coefficient = 1
      ∧ e.relationship_strength = classifyStrength |1|
      ∧ e.measurement1 = colTitle "a" ∧ e.measurement2 = colTitle "b" := by
  refine (calc_correlations_amended wDF cxCorrf cxPvalf).2.2 "a" "b" 1
    (by decide) (by decide) (by simp [pairsOf, measurementColumns, wDF]) rfl
    (by rw [abs_one]; norm_num)

/-- Updating one list element from unsatisfying to satisfying a filter
grows the filtered length by one. -/
theorem length_filter_update {l : List ℕ} (hl : l.Nodup) {p q : ℕ → Bool}
    {i : ℕ} (hi : i ∈ l) (hpi : p i = false) (hqi : q i = true)
    (hagree : ∀ j, j ≠ i → q j = p j) :
    (l.filter q).length = (l.filter p).length + 1 := by
  induction l with
  | nil => simp at hi
  | cons a t ih =>
    rcases List.mem_cons.mp hi with hia | hmem
    · subst hia
      have hnotin : i ∉ t := (List.nodup_cons.mp hl).1
      have ht : t.filter q = t.filter p :=
        List.filter_congr (fun b hb => hagree b (fun hbi => hnotin (hbi ▸ hb)))
      simp [List.filter_cons, hpi, hqi, ht]
    · have hai : a ≠ i := fun hh => ((List.nodup_cons.mp hl).1 (hh ▸ hmem))
      have ha : q a = p a := hagree a hai
      have ih2 := ih (List.nodup_cons.mp hl).2 hmem
      rw [List.filter_cons, List.filter_cons, ha]
      cases hpa : p a <;> simp [hpa, ih2]

/-- Partition of a filtered length by a second predicate. -/
theorem filter_and_not_length (l : List ℕ) (p q : ℕ → Bool) :
    (l.filter (fun i => p i && q i)).length
      + (l.filter (fun i => p i && !q i)).length = (l.filter p).length := by
  induction l with
  | nil => rfl
  | cons a t ih =>
    rw [List.filter_cons, List.filter_cons, List.filter_cons]
    cases hp : p a <;> cases hq : q a <;> simp [hp, hq] <;> omega

/-- `buildFailedResult` always raises: the synthesized result passes
`pixels_per_inch = 0.0` to a field validated with `gt=0`. -/
theorem buildFailedResult_raises (p m : String) (g : ℚ) :
    buildFailedResult p m g
      = .error "ValidationError: pixels_per_inch must be greater than 0" := by
  simp [buildFailedResult, mkCalibrationInfo]

/-- After the background processor has begun, a FAILED status is never
left: every event preserves it (and `started`). -/
theorem step_failed_absorbing (limit : ℕ) (o : ℕ → Outcome) (grid : ℚ)
    (s : BatchState) (e : BatchEvent) (hs : s.started = true)
    (hf : s.status = .failed) :
    (step limit o grid s e).status = .failed
    ∧ (step limit o grid s e).started = true := by
  cases e with
  | beginProc => simp [step, hs, hf]
  | startTask i =>
    simp only [step]
    split
    · split <;> exact ⟨hf, hs⟩
    · exact ⟨hf, hs⟩
  | finishTask i =>
    simp only [step, buildFailedResult_raises]
    split
    · split
      · exact ⟨hf, hs⟩
      · split
        · exact ⟨hf, hs⟩
        · exact ⟨rfl, hs⟩
    · exact ⟨hf, hs⟩
  | cancel => simp [step, hf, hs]
  | finalize =>
    simp only [step]
    split
    · simp [hf, hs]
    · exact ⟨hf, hs⟩

/-- Trace version of `step_failed_absorbing`. -/
theorem trace_failed_absorbing (limit : ℕ) (o : ℕ → Outcome) (grid : ℚ)
    (s : BatchState) (es : List BatchEvent) (hs : s.started = true)
    (hf : s.status = .failed) :
    (runTrace limit o grid s es).status = .failed := by
  induction es generalizing s with
  | nil => exact hf
  | cons e t ih =>
    have h := step_failed_absorbing limit o grid s e hs hf
    exact ih (step limit o grid s e) h.2 h.1

/-- Congruence of a filtered-range length under pointwise agreement below
the bound. -/
theorem length_filter_range_congr {n : ℕ} {p q : ℕ → Bool}
    (hag : ∀ a, a < n → p a = q a) :
    ((List.range n).filter p).length = ((List.range n).filter q).length :=
  congrArg List.length
    (List.filter_congr (fun a ha => hag a (List.mem_range.mp ha)))

/-- A running task is one of the batch tasks. -/
theorem phase_running_lt {o : ℕ → Outcome} {s : BatchState}
    (h : BatchInv o s) {i : ℕ} (hr : s.phase i = .running) :
    i < s.total_images := by
  by_contra hle
  have := (h.phase_oob i (Nat.le_of_not_lt hle)).symm.trans hr
  exact absurd this (by decide)

/-- The invariant is preserved by the processing-start event. -/
theorem batchInv_beginProc {o : ℕ → Outcome} (limit : ℕ) (grid : ℚ)
    {s : BatchState} (h : BatchInv o s) :
    BatchInv o (step limit o grid s .beginProc) := by
  simp only [step]
  split
  · exact h
  · rename_i hst
    have hst2 : s.started = false := by
      cases hb : s.started
      · rfl
      · exact absurd hb hst
    refine {
      completed_eq := h.completed_eq
      failed_eq := h.failed_eq
      local_eq := h.local_eq
      doneOrder_nodup := h.doneOrder_nodup
      doneOrder_mem := h.doneOrder_mem
      skipped_failed := ?_
      completed_final := ?_
      finalized_props := ?_
      not_finalized_stored := h.not_finalized_stored
      crashed_failed := ?_
      not_crashed_no_err := h.not_crashed_no_err
      phase_oob := h.phase_oob
      phase_started := fun _ _ => rfl }
    · intro i hsk
      exact absurd ((h.skipped_failed i hsk).2) (by simp [hst2])
    · intro hc
      simp at hc
    · intro hfin
      exact absurd (h.finalized_props hfin).2.2.2.1 (by simp [hst2])
    · intro hcr
      exact absurd (h.crashed_failed hcr).2 (by simp [hst2])

/-- The invariant is preserved by the cancel event. -/
theorem batchInv_cancel {o : ℕ → Outcome} (limit : ℕ) (grid : ℚ)
    {s : BatchState} (h : BatchInv o s) :
    BatchInv o (step limit o grid s .cancel) := by
  simp only [step]
  split
  · exact h
  · refine {
      completed_eq := h.completed_eq
      failed_eq := h.failed_eq
      local_eq := h.local_eq
      doneOrder_nodup := h.doneOrder_nodup
      doneOrder_mem := h.doneOrder_mem
      skipped_failed := fun i hsk => ⟨rfl, (h.skipped_failed i hsk).2⟩
      completed_final := fun hc => by simp at hc
      finalized_props := ?_
      not_finalized_stored := h.not_finalized_stored
      crashed_failed := fun hcr => ⟨rfl, (h.crashed_failed hcr).2⟩
      not_crashed_no_err := h.not_crashed_no_err
      phase_oob := h.phase_oob
      phase_started := h.phase_started }
    intro hfin
    obtain ⟨h1, h2, h3, h4, _⟩ := h.finalized_props hfin
    exact ⟨h1, h2, h3, h4, Or.inr rfl⟩

/-- The invariant is preserved by the finalization event. -/
theorem batchInv_finalize {o : ℕ → Outcome} (limit : ℕ) (grid : ℚ)
    {s : BatchState} (h : BatchInv o s) :
    BatchInv o (step limit o grid s .finalize) := by
  simp only [step]
  split
  · rename_i hguard
    have hb : s.started = true ∧ s.crashed = false ∧ s.finalized = false
        ∧ allSettled s = true := by
      simp only [Bool.and_eq_true, Bool.not_eq_true'] at hguard
      exact ⟨hguard.1.1.1, hguard.1.1.2, hguard.1.2, hguard.2⟩
    obtain ⟨hst, hncr, hnfin, hall⟩ := hb
    have hphases : ∀ i, i < s.total_images →
        s.phase i = .done ∨ s.phase i = .skipped := by
      intro i hi
      have := (List.all_eq_true.mp hall) i (List.mem_range.mpr hi)
      rcases Bool.or_eq_true_iff.mp this with hd | hs
      · exact Or.inl (by simpa using hd)
      · exact Or.inr (by simpa using hs)
    refine {
      completed_eq := h.completed_eq
      failed_eq := h.failed_eq
      local_eq := h.local_eq
      doneOrder_nodup := h.doneOrder_nodup
      doneOrder_mem := h.doneOrder_mem
      skipped_failed := ?_
      completed_final := fun _ => rfl
      finalized_props := ?_
      not_finalized_stored := ?_
      crashed_failed := ?_
      not_crashed_no_err := fun _ => h.not_crashed_no_err hncr
      phase_oob := h.phase_oob
      phase_started := h.phase_started }
    · intro i hsk
      have hold := h.skipped_failed i hsk
      refine ⟨?_, hold.2⟩
      simp [hold.1]
    · intro _
      refine ⟨hphases, rfl, hncr, hst, ?_⟩
      by_cases hq : (s.status == AnalysisStatus.failed) = true
      · simp only [hq, if_true]
        exact Or.inr (by simpa using hq)
      · simp only [hq, if_false]
        exact Or.inl rfl
    · intro hfalse
      simp at hfalse
    · intro hcr
      exact absurd (hncr.symm.trans hcr) (by decide)
  · exact h

/-- The done-counters agree between two states whose phases agree on
being done. -/
theorem doneCounts_eq_of_pred {o : ℕ → Outcome} (s1 s2 : BatchState)
    (htot : s1.total_images = s2.total_images)
    (hok : ∀ a, a < s2.total_images →
      (s1.phase a == TaskPhase.done) = (s2.phase a == TaskPhase.done)) :
    doneOkCount o s1 = doneOkCount o s2
    ∧ doneErrCount o s1 = doneErrCount o s2 := by
  unfold doneOkCount doneErrCount
  rw [htot]
  constructor <;> exact length_filter_range_congr (fun a ha => by rw [hok a ha])

/-- The invariant is preserved by a task-start event (skip or run). -/
theorem batchInv_startTask {o : ℕ → Outcome} (limit : ℕ) (grid : ℚ)
    {s : BatchState} (i : ℕ) (h : BatchInv o s) :
    BatchInv o (step limit o grid s (.startTask i)) := by
  simp only [step]
  split
  · rename_i hguard
    have hg : s.started = true ∧ i < s.total_images
        ∧ s.phase i = TaskPhase.notStarted ∧ runningCount s < limit := by
      simp only [Bool.and_eq_true, decide_eq_true_eq, beq_iff_eq] at hguard
      exact ⟨hguard.1.1.1, hguard.1.1.2, hguard.1.2, hguard.2⟩
    obtain ⟨hst, hit, hph, _⟩ := hg
    split
    · rename_i hfb
      have hsf : s.status = AnalysisStatus.failed := by simpa using hfb
      have hcounts := doneCounts_eq_of_pred (o := o)
        { s with phase := fun j => if j = i then TaskPhase.skipped else s.phase j }
        s rfl (fun a _ => by
          by_cases hai : a = i
          · subst hai; simp [hph]
          · simp [hai])
      refine {
        completed_eq := by rw [hcounts.1]; exact h.completed_eq
        failed_eq := by rw [hcounts.2]; exact h.failed_eq
        local_eq := h.local_eq
        doneOrder_nodup := h.doneOrder_nodup
        doneOrder_mem := ?_
        skipped_failed := ?_
        completed_final := fun hc => absurd (hsf.symm.trans hc) (by decide)
        finalized_props := ?_
        not_finalized_stored := h.not_finalized_stored
        crashed_failed := h.crashed_failed
        not_crashed_no_err := fun hcr => by
          rw [hcounts.2]; exact h.not_crashed_no_err hcr
        phase_oob := ?_
        phase_started := fun _ _ => hst }
      · intro a
        constructor
        · intro hm
          obtain ⟨h1, h2, h3⟩ := (h.doneOrder_mem a).mp hm
          have hai : a ≠ i := fun he => by
            rw [he, hph] at h2; exact absurd h2 (by decide)
          exact ⟨h1, by simp only [if_neg hai]; exact h2, h3⟩
        · intro hr
          rcases hr with ⟨h1, h2, h3⟩
          by_cases hai : a = i
          · subst hai; simp at h2
          · simp only [if_neg hai] at h2
            exact (h.doneOrder_mem a).mpr ⟨h1, h2, h3⟩
      · intro a hsk
        exact ⟨hsf, hst⟩
      · intro hfin
        exfalso
        rcases (h.finalized_props hfin).1 i hit with hd | hd <;>
          rw [hph] at hd <;> exact absurd hd (by decide)
      · intro a ha
        have ha2 : s.total_images ≤ a := ha
        have hai : a ≠ i := by omega
        simp only [if_neg hai]
        exact h.phase_oob a ha2
    · rename_i hfb
      have hcounts := doneCounts_eq_of_pred (o := o)
        { s with
          phase := fun j => if j = i then TaskPhase.running else s.phase j
          current_image := s.validImages[i]? }
        s rfl (fun a _ => by
          by_cases hai : a = i
          · subst hai; simp [hph]
          · simp [hai])
      refine {
        completed_eq := by rw [hcounts.1]; exact h.completed_eq
        failed_eq := by rw [hcounts.2]; exact h.failed_eq
        local_eq := h.local_eq
        doneOrder_nodup := h.doneOrder_nodup
        doneOrder_mem := ?_
        skipped_failed := ?_
        completed_final := ?_
        finalized_props := ?_
        not_finalized_stored := h.not_finalized_stored
        crashed_failed := h.crashed_failed
        not_crashed_no_err := fun hcr => by
          rw [hcounts.2]; exact h.not_crashed_no_err hcr
        phase_oob := ?_
        phase_started := fun _ _ => hst }
      · intro a
        constructor
        · intro hm
          obtain ⟨h1, h2, h3⟩ := (h.doneOrder_mem a).mp hm
          have hai : a ≠ i := fun he => by
            rw [he, hph] at h2; exact absurd h2 (by decide)
          exact ⟨h1, by simp only [if_neg hai]; exact h2, h3⟩
        · intro hr
          rcases hr with ⟨h1, h2, h3⟩
          by_cases hai : a = i
          · subst hai; simp at h2
          · simp only [if_neg hai] at h2
            exact (h.doneOrder_mem a).mpr ⟨h1, h2, h3⟩
      · intro a hsk
        by_cases hai : a = i
        · subst hai; simp at hsk
        · simp only [if_neg hai] at hsk
          obtain ⟨h1, h2⟩ := h.skipped_failed a hsk
          exact ⟨h1, h2⟩
      · intro hc
        exfalso
        have hfin := h.completed_final hc
        rcases (h.finalized_props hfin).1 i hit with hd | hd <;>
          rw [hph] at hd <;> exact absurd hd (by decide)
      · intro hfin
        exfalso
        rcases (h.finalized_props hfin).1 i hit with hd | hd <;>
          rw [hph] at hd <;> exact absurd hd (by decide)
      · intro a ha
        have ha2 : s.total_images ≤ a := ha
        have hai : a ≠ i := by omega
        simp only [if_neg hai]
        exact h.phase_oob a ha2
  · exact h

/-- The invariant is preserved when a task finishes successfully: its
result is appended and `completed_images` grows by one. -/
theorem batchInv_finish_ok {o : ℕ → Outcome} {s : BatchState} {i : ℕ}
    {fr : FishResult} (h : BatchInv o s) (hrun : s.phase i = .running)
    (ho : o i = .ok fr) :
    BatchInv o { s with
      phase := fun j => if j = i then TaskPhase.done else s.phase j
      localResults := s.localResults ++ [fr]
      completed_images := s.completed_images + 1
      doneOrder := s.doneOrder ++ [i] } := by
  have hit : i < s.total_images := phase_running_lt h hrun
  have hst : s.started = true := h.phase_started i (by simp [hrun])
  have hnotmem : i ∉ s.doneOrder := fun hm => by
    have h2 := ((h.doneOrder_mem i).mp hm).2.1
    rw [hrun] at h2; exact absurd h2 (by decide)
  have hok : doneOkCount o { s with
      phase := fun j => if j = i then TaskPhase.done else s.phase j
      localResults := s.localResults ++ [fr]
      completed_images := s.completed_images + 1
      doneOrder := s.doneOrder ++ [i] } = doneOkCount o s + 1 := by
    unfold doneOkCount
    exact length_filter_update (List.nodup_range _) (List.mem_range.mpr hit)
      (by simp [hrun]) (by simp [ho, isOk]) (fun j hji => by simp [hji])
  have herr : doneErrCount o { s with
      phase := fun j => if j = i then TaskPhase.done else s.phase j
      localResults := s.localResults ++ [fr]
      completed_images := s.completed_images + 1
      doneOrder := s.doneOrder ++ [i] } = doneErrCount o s := by
    unfold doneErrCount
    exact length_filter_range_congr (fun a _ => by
      by_cases hai : a = i
      · subst hai; simp [hrun, ho, isOk]
      · simp [hai])
  refine {
    completed_eq := ?_
    failed_eq := ?_
    local_eq := ?_
    doneOrder_nodup := ?_
    doneOrder_mem := ?_
    skipped_failed := ?_
    completed_final := ?_
    finalized_props := ?_
    not_finalized_stored := h.not_finalized_stored
    crashed_failed := h.crashed_failed
    not_crashed_no_err := fun hncr => herr.trans (h.not_crashed_no_err hncr)
    phase_oob := ?_
    phase_started := fun _ _ => hst }
  · rw [hok]
    show s.completed_images + 1 = doneOkCount o s + 1
    rw [h.completed_eq]
  · rw [herr]
    show s.failed_images = s.invalid_images.length + doneErrCount o s
    exact h.failed_eq
  · show s.localResults ++ [fr] = (s.doneOrder ++ [i]).map (okResultOf o)
    rw [List.map_append, ← h.local_eq]
    simp [okResultOf, ho]
  · show (s.doneOrder ++ [i]).Nodup
    simp [List.nodup_append, h.doneOrder_nodup, hnotmem]
  · intro a
    show a ∈ s.doneOrder ++ [i] ↔ _
    rw [List.mem_append]
    by_cases hai : a = i
    · subst hai
      simp [hit, ho, isOk]
    · simp only [if_neg hai, List.mem_singleton, hai, or_false]
      exact h.doneOrder_mem a
  · intro a hsk
    by_cases hai : a = i
    · subst hai; simp at hsk
    · simp only [if_neg hai] at hsk
      exact h.skipped_failed a hsk
  · intro hc
    exfalso
    have hc2 : s.status = .completed := hc
    rcases (h.finalized_props (h.completed_final hc2)).1 i hit with hd | hd <;>
      rw [hrun] at hd <;> exact absurd hd (by decide)
  · intro hfin
    exfalso
    have hfin2 : s.finalized = true := hfin
    rcases (h.finalized_props hfin2).1 i hit with hd | hd <;>
      rw [hrun] at hd <;> exact absurd hd (by decide)
  · intro a ha
    have ha2 : s.total_images ≤ a := ha
    have hai : a ≠ i := by omega
    simp only [if_neg hai]
    exact h.phase_oob a ha2

/-- The invariant is preserved when a task finishes with an Analyzer error
while the batch has already crashed: `failed_images` grows by one, the
exception of the failed-result constructor is swallowed by the event
loop. -/
theorem batchInv_finish_err_crashed {o : ℕ → Outcome} {s : BatchState}
    {i : ℕ} (h : BatchInv o s) (hrun : s.phase i = .running)
    (hne : isOk (o i) = false) (hcr : s.crashed = true) :
    BatchInv o { s with
      phase := fun j => if j = i then TaskPhase.done else s.phase j
      failed_images := s.failed_images + 1 } := by
  have hit : i < s.total_images := phase_running_lt h hrun
  have hst : s.started = true := h.phase_started i (by simp [hrun])
  have hnotmem : i ∉ s.doneOrder := fun hm => by
    have h2 := ((h.doneOrder_mem i).mp hm).2.1
    rw [hrun] at h2; exact absurd h2 (by decide)
  have hok : doneOkCount o { s with
      phase := fun j => if j = i then TaskPhase.done else s.phase j
      failed_images := s.failed_images + 1 } = doneOkCount o s := by
    unfold doneOkCount
    exact length_filter_range_congr (fun a _ => by
      by_cases hai : a = i
      · subst hai; simp [hrun, hne]
      · simp [hai])
  have herr : doneErrCount o { s with
      phase := fun j => if j = i then TaskPhase.done else s.phase j
      failed_images := s.failed_images + 1 } = doneErrCount o s + 1 := by
    unfold doneErrCount
    exact length_filter_update (List.nodup_range _) (List.mem_range.mpr hit)
      (by simp [hrun]) (by simp [hne]) (fun j hji => by simp [hji])
  refine {
    completed_eq := ?_
    failed_eq := ?_
    local_eq := h.local_eq
    doneOrder_nodup := h.doneOrder_nodup
    doneOrder_mem := ?_
    skipped_failed := ?_
    completed_final := ?_
    finalized_props := ?_
    not_finalized_stored := h.not_finalized_stored
    crashed_failed := h.crashed_failed
    not_crashed_no_err := ?_
    phase_oob := ?_
    phase_started := fun _ _ => hst }
  · rw [hok]
    show s.completed_images = doneOkCount o s
    exact h.completed_eq
  · rw [herr]
    show s.failed_images + 1 = s.invalid_images.length + (doneErrCount o s + 1)
    rw [h.failed_eq]
    omega
  · intro a
    show a ∈ s.doneOrder ↔ _
    by_cases hai : a = i
    · subst hai
      simp only [if_pos rfl]
      constructor
      · intro hm; exact absurd hm hnotmem
      · intro hr; exact absurd hr.2.2 (by simp [hne])
    · simp only [if_neg hai]
      exact h.doneOrder_mem a
  · intro a hsk
    by_cases hai : a = i
    · subst hai; simp at hsk
    · simp only [if_neg hai] at hsk
      exact h.skipped_failed a hsk
  · intro hc
    have hc2 : s.status = .completed := hc
    exact absurd ((h.crashed_failed hcr).1.symm.trans hc2) (by decide)
  · intro hfin
    have hfin2 : s.finalized = true := hfin
    exact absurd (hcr.symm.trans (h.finalized_props hfin2).2.2.1) (by decide)
  · intro hncr
    have hncr2 : s.crashed = false := hncr
    exact absurd (hcr.symm.trans hncr2) (by decide)
  · intro a ha
    have ha2 : s.total_images ≤ a := ha
    have hai : a ≠ i := by omega
    simp only [if_neg hai]
    exact h.phase_oob a ha2

/-- The invariant is preserved when a task finishes with an Analyzer error
and the batch has not crashed yet: `failed_images` grows by one and the
`ValidationError` raised by the failed-result constructor propagates out of
`gather`, marking the whole batch FAILED. -/
theorem batchInv_finish_err_crash {o : ℕ → Outcome} {s : BatchState}
    {i : ℕ} (ve : String) (h : BatchInv o s) (hrun : s.phase i = .running)
    (hne : isOk (o i) = false) :
    BatchInv o { s with
      phase := fun j => if j = i then TaskPhase.done else s.phase j
      failed_images := s.failed_images + 1
      status := AnalysisStatus.failed
      error_message := some ve
      crashed := true } := by
  have hit : i < s.total_images := phase_running_lt h hrun
  have hst : s.started = true := h.phase_started i (by simp [hrun])
  have hnotmem : i ∉ s.doneOrder := fun hm => by
    have h2 := ((h.doneOrder_mem i).mp hm).2.1
    rw [hrun] at h2; exact absurd h2 (by decide)
  have hok : doneOkCount o { s with
      phase := fun j => if j = i then TaskPhase.done else s.phase j
      failed_images := s.failed_images + 1
      status := AnalysisStatus.failed
      error_message := some ve
      crashed := true } = doneOkCount o s := by
    unfold doneOkCount
    exact length_filter_range_congr (fun a _ => by
      by_cases hai : a = i
      · subst hai; simp [hrun, hne]
      · simp [hai])
  have herr : doneErrCount o { s with
      phase := fun j => if j = i then TaskPhase.done else s.phase j
      failed_images := s.failed_images + 1
      status := AnalysisStatus.failed
      error_message := some ve
      crashed := true } = doneErrCount o s + 1 := by
    unfold doneErrCount
    exact length_filter_update (List.nodup_range _) (List.mem_range.mpr hit)
      (by simp [hrun]) (by simp [hne]) (fun j hji => by simp [hji])
  refine {
    completed_eq := ?_
    failed_eq := ?_
    local_eq := h.local_eq
    doneOrder_nodup := h.doneOrder_nodup
    doneOrder_mem := ?_
    skipped_failed := fun _ _ => ⟨rfl, hst⟩
    completed_final := fun hc => by simp at hc
    finalized_props := ?_
    not_finalized_stored := h.not_finalized_stored
    crashed_failed := fun _ => ⟨rfl, hst⟩
    not_crashed_no_err := fun hf => by simp at hf
    phase_oob := ?_
    phase_started := fun _ _ => hst }
  · rw [hok]
    show s.completed_images = doneOkCount o s
    exact h.completed_eq
  · rw [herr]
    show s.failed_images + 1 = s.invalid_images.length + (doneErrCount o s + 1)
    rw [h.failed_eq]
    omega
  · intro a
    show a ∈ s.doneOrder ↔ _
    by_cases hai : a = i
    · subst hai
      simp only [if_pos rfl]
      constructor
      · intro hm; exact absurd hm hnotmem
      · intro hr; exact absurd hr.2.2 (by simp [hne])
    · simp only [if_neg hai]
      exact h.doneOrder_mem a
  · intro hfin
    exfalso
    have hfin2 : s.finalized = true := hfin
    rcases (h.finalized_props hfin2).1 i hit with hd | hd <;>
      rw [hrun] at hd <;> exact absurd hd (by decide)
  · intro a ha
    have ha2 : s.total_images ≤ a := ha
    have hai : a ≠ i := by omega
    simp only [if_neg hai]
    exact h.phase_oob a ha2

/-- The invariant is preserved by a task-finish event. -/
theorem batchInv_finishTask {o : ℕ → Outcome} (limit : ℕ) (grid : ℚ)
    {s : BatchState} (i : ℕ) (h : BatchInv o s) :
    BatchInv o (step limit o grid s (.finishTask i)) := by
  simp only [step, buildFailedResult_raises]
  split
  · rename_i hg
    have hrun : s.phase i = .running := by simpa using hg
    cases ho : o i with
    | ok fr => exact batchInv_finish_ok h hrun ho
    | err m =>
      have hne : isOk (o i) = false := by rw [ho]; rfl
      by_cases hcr : s.crashed = true
      · simpa [hcr] using batchInv_finish_err_crashed h hrun hne hcr
      · have hcr2 : s.crashed = false := by
          cases hb : s.crashed
          · rfl
          · exact absurd hb hcr
        simpa [hcr2] using batchInv_finish_err_crash
          "ValidationError: pixels_per_inch must be greater than 0"
          h hrun hne
  · exact h

/-- The invariant is preserved by every event. -/
theorem batchInv_step {o : ℕ → Outcome} (limit : ℕ) (grid : ℚ)
    {s : BatchState} (e : BatchEvent) (h : BatchInv o s) :
    BatchInv o (step limit o grid s e) := by
  cases e with
  | beginProc => exact batchInv_beginProc limit grid h
  | startTask i => exact batchInv_startTask limit grid i h
  | finishTask i => exact batchInv_finishTask limit grid i h
  | cancel => exact batchInv_cancel limit grid h
  | finalize => exact batchInv_finalize limit grid h

/-- The invariant is preserved by every schedule. -/
theorem batchInv_trace {o : ℕ → Outcome} (limit : ℕ) (grid : ℚ)
    {s : BatchState} (es : List BatchEvent) (h : BatchInv o s) :
    BatchInv o (runTrace limit o grid s es) := by
  induction es generalizing s with
  | nil => exact h
  | cons e t ih => exact ih (batchInv_step limit grid e h)

/-- In the initial record every phase is `notStarted`, so the done filters
are empty. -/
theorem filter_notStarted_nil (n : ℕ) (g : ℕ → Bool) :
    (List.range n).filter
      (fun i => (TaskPhase.notStarted == TaskPhase.done && g i)) = [] :=
  List.filter_eq_nil_iff.mpr (fun a _ => by
    show ¬(false && g a) = true
    simp)

/-- The freshly created batch record satisfies the invariant. -/
theorem batchInv_init {o : ℕ → Outcome} {images : List String}
    {resolves : String → Bool} {s : BatchState}
    (h : startBatchAnalysis images resolves = .ok s) : BatchInv o s := by
  unfold startBatchAnalysis at h
  by_cases he : (images.filter resolves).isEmpty
  · simp [he] at h
  · simp only [he, Bool.false_eq_true, if_false, reduceIte,
      Except.ok.injEq] at h
    subst h
    refine {
      completed_eq := by simp [doneOkCount, defaultBatchState, filter_notStarted_nil]
      failed_eq := by simp [doneErrCount, defaultBatchState, filter_notStarted_nil]
      local_eq := rfl
      doneOrder_nodup := List.nodup_nil
      doneOrder_mem := fun a => by simp [defaultBatchState]
      skipped_failed := fun i hsk => by simp [defaultBatchState] at hsk
      completed_final := fun hc => by simp [defaultBatchState] at hc
      finalized_props := fun hf => by simp [defaultBatchState] at hf
      not_finalized_stored := fun _ => rfl
      crashed_failed := fun hcr => by simp [defaultBatchState] at hcr
      not_crashed_no_err := fun _ => by simp [doneErrCount, defaultBatchState, filter_notStarted_nil]
      phase_oob := fun _ _ => rfl
      phase_started := fun i hp => by simp [defaultBatchState] at hp }

/-- In a batch that ends COMPLETED, every task finished successfully, the
completion order is a permutation of the task indices, the stored list is
the completion-ordered successful results, and the counters are full. -/
theorem completed_state_facts {o : ℕ → Outcome} {s : BatchState}
    (h : BatchInv o s) (hc : s.status = .completed) :
    (∀ i, i < s.total_images → s.phase i = .done ∧ isOk (o i) = true)
    ∧ s.doneOrder.Perm (List.range s.total_images)
    ∧ s.resultsStored = s.doneOrder.map (okResultOf o)
    ∧ s.completed_images = s.total_images
    ∧ s.failed_images = s.invalid_images.length := by
  have hfin := h.completed_final hc
  obtain ⟨hph, hstored, hncr, _, _⟩ := h.finalized_props hfin
  have herr0 := h.not_crashed_no_err hncr
  have hdone : ∀ i, i < s.total_images → s.phase i = .done := by
    intro i hi
    rcases hph i hi with hd | hd
    · exact hd
    · exact absurd (hc.symm.trans (h.skipped_failed i hd).1) (by decide)
  have hoki : ∀ i, i < s.total_images → isOk (o i) = true := by
    intro i hi
    by_contra hno
    have hf : isOk (o i) = false := by
      cases hb : isOk (o i)
      · rfl
      · exact absurd hb hno
    have hmem : i ∈ (List.range s.total_images).filter
        (fun a => s.phase a == TaskPhase.done && !isOk (o a)) := by
      apply List.mem_filter.mpr
      exact ⟨List.mem_range.mpr hi, by simp [hdone i hi, hf]⟩
    have hnil : (List.range s.total_images).filter
        (fun a => s.phase a == TaskPhase.done && !isOk (o a)) = [] :=
      List.length_eq_zero.mp herr0
    rw [hnil] at hmem
    exact absurd hmem (List.not_mem_nil i)
  have hperm : s.doneOrder.Perm (List.range s.total_images) := by
    refine (List.perm_ext_iff_of_nodup h.doneOrder_nodup
      (List.nodup_range _)).mpr ?_
    intro a
    rw [h.doneOrder_mem a, List.mem_range]
    constructor
    · exact fun hh => hh.1
    · intro ha
      exact ⟨ha, hdone a ha, hoki a ha⟩
  have hcompl : s.completed_images = s.total_images := by
    rw [h.completed_eq]
    unfold doneOkCount
    have hfull : (List.range s.total_images).filter
        (fun a => s.phase a == TaskPhase.done && isOk (o a))
        = List.range s.total_images := by
      apply List.filter_eq_self.mpr
      intro a ha
      have hai := List.mem_range.mp ha
      simp [hdone a hai, hoki a hai]
    rw [hfull, List.length_range]
  have hfail : s.failed_images = s.invalid_images.length := by
    rw [h.failed_eq, herr0]
    exact Nat.add_zero _
  exact ⟨fun i hi => ⟨hdone i hi, hoki i hi⟩, hperm,
    hstored.trans h.local_eq, hcompl, hfail⟩

/-- C1 (amended): `failed_images` starts at the invalid-image count, so
the counters relate to `totalImages + invalidCount`: at every reachable
point `completedCount + failedCount ≤ totalImages + invalidCount`, and a
batch reaching COMPLETED satisfies
`completedCount + failedCount = totalImages + invalidCount` and
`len(results) = totalImages` (with zero invalid images this is the
original claim). -/
theorem batch_counts (images : List String) (resolves : String → Bool)
    (limit : ℕ) (o : ℕ → Outcome) (grid : ℚ) (es : List BatchEvent)
    (s0 : BatchState) (h0 : startBatchAnalysis images resolves = .ok s0) :
    (runTrace limit o grid s0 es).completed_images
        + (runTrace limit o grid s0 es).failed_images
      ≤ (runTrace limit o grid s0 es).total_images
        + (runTrace limit o grid s0 es).invalid_images.length
    ∧ ((runTrace limit o grid s0 es).status = .completed →
        (runTrace limit o grid s0 es).completed_images
            + (runTrace limit o grid s0 es).failed_images
          = (runTrace limit o grid s0 es).total_images
            + (runTrace limit o grid s0 es).invalid_images.length
        ∧ (runTrace limit o grid s0 es).resultsStored.length
          = (runTrace limit o grid s0 es).total_images) := by
  have hinv := batchInv_trace limit grid es (batchInv_init (o := o) h0)
  set s := runTrace limit o grid s0 es with hs
  constructor
  · rw [hinv.completed_eq, hinv.failed_eq]
    have hpart := filter_and_not_length (List.range s.total_images)
      (fun a => s.phase a == TaskPhase.done) (fun a => isOk (o a))
    have hle := List.length_filter_le
      (fun a => s.phase a == TaskPhase.done) (List.range s.total_images)
    rw [List.length_range] at hle
    unfold doneOkCount doneErrCount
    omega
  · intro hc
    obtain ⟨_, hperm, hstored, hcompl, hfail⟩ := completed_state_facts hinv hc
    refine ⟨by omega, ?_⟩
    rw [hstored, List.length_map, hperm.length_eq, List.length_range]

/-- Witness for C1 (amended) at a concrete input: the two-image batch run
to completion through a swapped-finish schedule. -/
theorem batch_counts_witness :
    (runTrace 3 bOutcome 1 bInit bTraceSwap).completed_images
        + (runTrace 3 bOutcome 1 bInit bTraceSwap).failed_images
      = (runTrace 3 bOutcome 1 bInit bTraceSwap).total_images
        + (runTrace 3 bOutcome 1 bInit bTraceSwap).invalid_images.length
    ∧ (runTrace 3 bOutcome 1 bInit bTraceSwap).resultsStored.length
      = (runTrace 3 bOutcome 1 bInit bTraceSwap).total_images :=
  (batch_counts bImages bResolves 3 bOutcome 1 bTraceSwap bInit rfl).2
    (by decide)

/-- Counterexample to C1 as stated: a batch created with one invalid and
one valid image starts with `failed_images = 1`; after the single valid
image succeeds, the batch is COMPLETED (terminal) with
`completed_images + failed_images = 2` while `total_images = 1`, violating
both the terminal equation and the claimed `≤ totalImages` invariant. -/
theorem batch_counts_counterexample :
    startBatchAnalysis cImages cResolves = .ok cInit
    ∧ (runTrace 3 gOutcome 1 cInit cTrace).status = AnalysisStatus.completed
    ∧ (runTrace 3 gOutcome 1 cInit cTrace).completed_images
        + (runTrace 3 gOutcome 1 cInit cTrace).failed_images = 2
    ∧ (runTrace 3 gOutcome 1 cInit cTrace).total_images = 1
    ∧ (runTrace 3 gOutcome 1 cInit cTrace).resultsStored.length = 1 := by
  refine ⟨rfl, by decide, by decide, rfl, by decide⟩

/-- C2 (amended): the results list is created empty (not pre-sized) and
results are appended in completion order: on a run that ends COMPLETED the
stored list is the successful results in the order the tasks finished, a
permutation of the per-image results — slot `i` holds the `i`-th result to
finish, not the result of input `i`. -/
theorem results_completion_order (images : List String)
    (resolves : String → Bool) (limit : ℕ) (o : ℕ → Outcome) (grid : ℚ)
    (es : List BatchEvent) (s0 : BatchState)
    (h0 : startBatchAnalysis images resolves = .ok s0)
    (hc : (runTrace limit o grid s0 es).status = .completed) :
    s0.resultsStored = []
    ∧ (runTrace limit o grid s0 es).resultsStored
        = (runTrace limit o grid s0 es).doneOrder.map (okResultOf o)
    ∧ (runTrace limit o grid s0 es).doneOrder.Perm
        (List.range (runTrace limit o grid s0 es).total_images) := by
  have hinv := batchInv_trace limit grid es (batchInv_init (o := o) h0)
  obtain ⟨_, hperm, hstored, _, _⟩ := completed_state_facts hinv hc
  refine ⟨?_, hstored, hperm⟩
  unfold startBatchAnalysis at h0
  by_cases he : (images.filter resolves).isEmpty
  · simp [he] at h0
  · simp only [he, Bool.false_eq_true, if_false, reduceIte,
      Except.ok.injEq] at h0
    subst h0
    rfl

/-- Witness for C2 (amended) at a concrete input: the swapped-finish
schedule of the two-image batch. -/
theorem results_completion_order_witness :
    bInit.resultsStored = []
    ∧ (runTrace 3 bOutcome 1 bInit bTraceSwap).resultsStored
        = (runTrace 3 bOutcome 1 bInit bTraceSwap).doneOrder.map
            (okResultOf bOutcome)
    ∧ (runTrace 3 bOutcome 1 bInit bTraceSwap).doneOrder.Perm
        (List.range (runTrace 3 bOutcome 1 bInit bTraceSwap).total_images) :=
  results_completion_order bImages bResolves 3 bOutcome 1 bTraceSwap bInit
    rfl (by decide)

/-- Counterexample to C2 as stated: at creation the results list has
length 0, not the valid-image count 2 (no pre-sizing); and under a
schedule where task 1 finishes before task 0, slot 0 of the final stored
list holds the result of input image 1, not of input image 0. -/
theorem results_order_counterexample :
    startBatchAnalysis bImages bResolves = .ok bInit
    ∧ bInit.total_images = 2
    ∧ bInit.resultsStored.length = 0
    ∧ (runTrace 3 bOutcome 1 bInit bTraceSwap).status
        = AnalysisStatus.completed
    ∧ (runTrace 3 bOutcome 1 bInit bTraceSwap).resultsStored = [wRes1, wRes0]
    ∧ wRes0 ≠ wRes1 := by
  refine ⟨rfl, rfl, rfl, by decide, by decide, by decide⟩

/-- C5: evaluation of the code at the failing input. In a 3-image batch
whose 2nd Analyzer call raises, the except branch increments
`failed_images` and then synthesizes the failed result — but that
construction itself raises a pydantic `ValidationError`
(`pixels_per_inch=0.0` violates `gt=0`), which propagates out of `gather`
into the outer handler: the final status is FAILED (not COMPLETED), the
stored results list stays empty (the failed result is recorded nowhere),
and the record carries the validation error, even though the other two
images completed. -/
theorem batch_item_failure_crashes :
    startBatchAnalysis fImages bResolves = .ok fInit
    ∧ buildFailedResult "i2" "boom" 1
        = .error "ValidationError: pixels_per_inch must be greater than 0"
    ∧ (runTrace 3 fOutcome 1 fInit fTrace).status = AnalysisStatus.failed
    ∧ (runTrace 3 fOutcome 1 fInit fTrace).completed_images = 2
    ∧ (runTrace 3 fOutcome 1 fInit fTrace).failed_images = 1
    ∧ (runTrace 3 fOutcome 1 fInit fTrace).resultsStored = []
    ∧ (runTrace 3 fOutcome 1 fInit fTrace).error_message
        = some "ValidationError: pixels_per_inch must be greater than 0" := by
  refine ⟨rfl, buildFailedResult_raises "i2" "boom" 1, ?_, ?_, ?_, ?_, ?_⟩
    <;> decide

/-- C6 (amended): the cancel endpoint immediately marks a PENDING or
PROCESSING batch FAILED with the cancellation message and raises on a
terminal batch, leaving it unchanged; after processing has begun a FAILED
status is permanent (finalization keeps it), not-yet-started tasks observe
it and skip, and in-flight tasks still complete and record their results.
(A cancellation issued before the background processor begins is
overwritten — see the counterexample.) -/
theorem cancel_semantics (limit : ℕ) (o : ℕ → Outcome) (grid : ℚ)
    (s : BatchState) :
    ((s.status = .pending ∨ s.status = .processing) →
      cancelBatchAnalysis s
        = .ok { s with
            status := .failed
            error_message := some "Analysis cancelled by user" }
      ∧ step limit o grid s .cancel
        = { s with
            status := .failed
            error_message := some "Analysis cancelled by user" })
    ∧ ((s.status = .completed ∨ s.status = .failed) →
        cancelBatchAnalysis s = .error "Cannot cancel completed analysis"
        ∧ step limit o grid s .cancel = s)
    ∧ (∀ i, s.status = .failed → s.started = true →
        s.phase i = .notStarted → i < s.total_images →
        runningCount s < limit →
        step limit o grid s (.startTask i)
          = { s with
              phase := fun j => if j = i then TaskPhase.skipped
                else s.phase j })
    ∧ (∀ i fr, s.phase i = .running → o i = .ok fr →
        step limit o grid s (.finishTask i)
          = { s with
              phase := fun j => if j = i then TaskPhase.done else s.phase j
              localResults := s.localResults ++ [fr]
              completed_images := s.completed_images + 1
              doneOrder := s.doneOrder ++ [i] })
    ∧ (s.status = .failed → (step limit o grid s .finalize).status = .failed)
    ∧ (∀ es, s.started = true → s.status = .failed →
        (runTrace limit o grid s es).status = .failed) := by
  refine ⟨?_, ?_, ?_, ?_, ?_, ?_⟩
  · intro hps
    have hcond : (s.status == AnalysisStatus.completed
        || s.status == AnalysisStatus.failed) = false := by
      rcases hps with hp | hp <;> simp [hp]
    exact ⟨by simp [cancelBatchAnalysis, hcond], by simp [step, hcond]⟩
  · intro hterm
    have hcond : (s.status == AnalysisStatus.completed
        || s.status == AnalysisStatus.failed) = true := by
      rcases hterm with hp | hp <;> simp [hp]
    exact ⟨by simp [cancelBatchAnalysis, hcond], by simp [step, hcond]⟩
  · intro i hf hst hph hi hrc
    simp [step, hst, hph, hi, hrc, hf]
  · intro i fr hrun ho
    simp [step, hrun, ho]
  · intro hf
    simp only [step]
    split
    · simp [hf]
    · exact hf
  · intro es hst hf
    exact trace_failed_absorbing limit o grid s es hst hf

/-- Witness for C6 (amended) at a concrete input: cancelling the one-image
batch after processing began keeps it FAILED through the rest of the
schedule, and cancelling again raises. -/
theorem cancel_semantics_witness :
    cancelBatchAnalysis gCancelled = .error "Cannot cancel completed analysis"
    ∧ (runTrace 3 gOutcome 1 gCancelled [.startTask 0, .finalize]).status
        = AnalysisStatus.failed := by
  constructor
  · exact ((cancel_semantics 3 gOutcome 1 gCancelled).2.1
      (Or.inr (by decide))).1
  · exact (cancel_semantics 3 gOutcome 1 gCancelled).2.2.2.2.2
      [.startTask 0, .finalize] (by decide) (by decide)

/-- Counterexample to C6 as stated: a cancel issued while the batch is
still PENDING legally sets the status to FAILED, but the background
processor then sets PROCESSING unconditionally, the not-yet-started task
runs instead of skipping, and the batch finishes COMPLETED — the
cancellation is silently lost. -/
theorem cancel_race_counterexample :
    startBatchAnalysis ["g1"] bResolves = .ok gInit
    ∧ gInit.status = AnalysisStatus.pending
    ∧ (step 3 gOutcome 1 gInit .cancel).status = AnalysisStatus.failed
    ∧ (runTrace 3 gOutcome 1 gInit
        [.cancel, .beginProc, .startTask 0, .finishTask 0, .finalize]).status
      = AnalysisStatus.completed
    ∧ (runTrace 3 gOutcome 1 gInit
        [.cancel, .beginProc, .startTask 0, .finishTask 0, .finalize]).phase 0
      = TaskPhase.done := by
  refine ⟨rfl, rfl, by decide, by decide, by decide⟩

/-- C9: with no status filter and no search term, the paginated-results
handler sorts the stored results list itself (Python `list.sort` on the
aliased `batch_info` list), so a subsequent plain results read returns the
reordered list; with a status filter or search term a fresh list is sorted
and the stored list is untouched. -/
theorem paginated_read_sorts_stored (s : BatchState) (page : ℤ)
    (per_page : ℕ) (sort_by sort_order : String) :
    ((getBatchResultsPaginated s page per_page none sort_by sort_order
        none).2).resultsStored
      = pySortResults sort_by sort_order s.resultsStored
    ∧ (s.status ≠ .processing →
        getBatchResults
          ((getBatchResultsPaginated s page per_page none sort_by sort_order
            none).2)
          = .ok (pySortResults sort_by sort_order s.resultsStored))
    ∧ (∀ sf q,
        ((getBatchResultsPaginated s page per_page (some sf) sort_by
            sort_order q).2).resultsStored
          = s.resultsStored) := by
  refine ⟨rfl, ?_, fun sf q => rfl⟩
  intro hnp
  simp [getBatchResults, getBatchResultsPaginated, hnp]

/-- Witness for C9 at a concrete input: after one paginated read sorted by
`created_at` ascending on a two-result batch stored in recorded order, the
plain results read returns the reordered list. -/
theorem paginated_read_sorts_stored_witness :
    s9.resultsStored = [r9a, r9b]
    ∧ getBatchResults
        ((getBatchResultsPaginated s9 1 12 none "created_at" "asc" none).2)
      = .ok [r9b, r9a] := by
  refine ⟨rfl, ?_⟩
  have h := (paginated_read_sorts_stored s9 1 12 "created_at" "asc").2.1
    (by decide)
  rw [h]
  exact congrArg Except.ok (by decide)

end Octapulse
